import Mathlib

/-!
# Pipeline flow-reachability engine: shallow embedding

This file embeds the flow computation of `src/gatevalve.js`
(`computeMultiTankBFS`, `getBlockingValve`, `distanceToSegment`,
lines 905-1157) into Lean 4 and proves the specification claims about it.

Modelling decisions:

* JS numbers (latitudes, longitudes, distances) are modelled as `ℚ`.
* `this.map.distance` is the Leaflet mapping library's distance function,
  external to the repository; every definition takes it as an explicit
  parameter `dist : GeoPoint → GeoPoint → ℚ`.  Concrete witnesses
  instantiate it with the planar test metric `testDist` below.
* JS string keys `"pid-idx"` (node keys) and `"pid-i-(i+1)"` (segment keys)
  are modelled as pairs `(pid, idx)` / `(pid, i)`; for the integer ids the
  database produces (SQLite AUTOINCREMENT) the string encoding is injective,
  so the pair model is faithful.
* A JS `Set` is modelled as an insertion-ordered duplicate-free list with
  `jsSetAdd`; a JS `Map` as an association list with `jsMapSet`.
* `pipeline.nodes` is stored as a JSON string and re-parsed at each use;
  the embedding carries the parsed list directly.
-/

namespace JalFlow

/-- A geographic point `{lat, lng}`. -/
structure GeoPoint where
  lat : ℚ
  lng : ℚ
deriving DecidableEq, Repr

/-- The fields of a tank record used by `computeMultiTankBFS`. -/
structure Tank where
  name : String
  latitude : ℚ
  longitude : ℚ
deriving DecidableEq, Repr

/-- The fields of a gate-valve record used by the flow computation
(`gateValveSystem.valves` entries). -/
structure Valve where
  name : String
  latitude : ℚ
  longitude : ℚ
  isOpen : Bool
deriving DecidableEq, Repr

/-- A pipeline record: integer id and its parsed node polyline
(`JSON.parse(pipeline.nodes)`). -/
structure Pipeline where
  id : ℕ
  nodes : List GeoPoint
deriving DecidableEq, Repr

/-- The external mapping library's point-to-point distance
(`this.map.distance`), a parameter of the whole engine. -/
abbrev Dist := GeoPoint → GeoPoint → ℚ

/-- `CONNECT_DISTANCE = 50` (gatevalve.js line 906). -/
def CONNECT_DISTANCE : ℚ := 50

/-- `VALVE_BLOCK_DISTANCE = 15` (gatevalve.js line 907). -/
def VALVE_BLOCK_DISTANCE : ℚ := 15

/-- `maxIterations = 10000` (gatevalve.js line 976). -/
def maxIterations : ℕ := 10000

/-- `distanceToSegment(point, segmentStart, segmentEnd)`
(gatevalve.js lines 1131-1157): planar projection of `point` onto the
segment in lat/lng coordinates, then the map distance from `point` to the
closest point.  `lenSq == 0` leaves `param = -1`, so the closest point is
`segmentStart`. -/
def distanceToSegment (dist : Dist) (point segmentStart segmentEnd : GeoPoint) : ℚ :=
  let A := point.lat - segmentStart.lat
  let B := point.lng - segmentStart.lng
  let C := segmentEnd.lat - segmentStart.lat
  let D := segmentEnd.lng - segmentStart.lng
  let dot := A * C + B * D
  let lenSq := C * C + D * D
  let param : ℚ := if lenSq ≠ 0 then dot / lenSq else -1
  let closest : GeoPoint :=
    if param < 0 then
      { lat := segmentStart.lat, lng := segmentStart.lng }
    else if param > 1 then
      { lat := segmentEnd.lat, lng := segmentEnd.lng }
    else
      { lat := segmentStart.lat + param * C, lng := segmentStart.lng + param * D }
  dist point closest

/-- The location of a valve as a `GeoPoint`. -/
def Valve.loc (v : Valve) : GeoPoint := { lat := v.latitude, lng := v.longitude }

/-- The location of a tank as a `GeoPoint`. -/
def Tank.loc (t : Tank) : GeoPoint := { lat := t.latitude, lng := t.longitude }

/-- `getBlockingValve(segmentStart, segmentEnd, closedValves, maxDistance)`
(gatevalve.js lines 1116-1129): the first valve of `closedValves` whose
location is within `maxDistance` of the segment, else `none`. -/
def getBlockingValve (dist : Dist) (segmentStart segmentEnd : GeoPoint) :
    List Valve → ℚ → Option Valve
  | [], _ => none
  | valve :: rest, maxDistance =>
    if distanceToSegment dist valve.loc segmentStart segmentEnd < maxDistance then
      some valve
    else
      getBlockingValve dist segmentStart segmentEnd rest maxDistance

/-- A BFS queue entry `{pipelineId, nodeIndex, sourceTank}`. -/
structure QueueEntry where
  pipelineId : ℕ
  nodeIndex : ℕ
  sourceTank : String
deriving DecidableEq, Repr

/-- A record pushed to `flowData.segments` (gatevalve.js lines 1021-1027). -/
structure FlowingSegment where
  pipelineId : ℕ
  start : GeoPoint
  «end» : GeoPoint
  status : String
  sourceTank : String
deriving DecidableEq, Repr

/-- A record pushed to `flowData.blockedSegments`
(gatevalve.js lines 1010-1016). -/
structure BlockedSegment where
  pipelineId : ℕ
  start : GeoPoint
  «end» : GeoPoint
  status : String
  blockedBy : String
deriving DecidableEq, Repr

/-- Model of a node key string `` `${pipelineId}-${nodeIndex}` ``. -/
abbrev NodeKey := ℕ × ℕ

/-- Model of a segment key string `` `${pipelineId}-${i}-${i+1}` ``. -/
abbrev SegKey := ℕ × ℕ

/-- JS `Set.prototype.add`: append if absent. -/
def jsSetAdd {α : Type} [DecidableEq α] (s : List α) (a : α) : List α :=
  if a ∈ s then s else s ++ [a]

/-- JS `Map.prototype.set`: replace the value of an existing key in place,
else append the pair. -/
def jsMapSet {α β : Type} [DecidableEq α] : List (α × β) → α → β → List (α × β)
  | [], k, v => [(k, v)]
  | (k', v') :: rest, k, v =>
    if k' = k then (k, v) :: rest else (k', v') :: jsMapSet rest k v

/-- The mutable state of one `computeMultiTankBFS` invocation: the local
sets and queue together with the accumulating `flowData` lists
(gatevalve.js lines 909-925, 974-976). -/
structure BFSState where
  queue : List QueueEntry
  visitedSegments : List SegKey
  blockedSegments : List SegKey
  visitedPipelineNodes : List NodeKey
  segments : List FlowingSegment
  blockedList : List BlockedSegment
  pipelineStatus : List (ℕ × String)
  iterations : ℕ
deriving DecidableEq, Repr

/-- The seeding node loop (gatevalve.js lines 934-950): enqueue the first
node of the pipeline within `CONNECT_DISTANCE` of the tank, then break. -/
def seedNodeLoop (dist : Dist) (tank : Tank) (pid : ℕ) :
    List GeoPoint → ℕ → Option QueueEntry
  | [], _ => none
  | node :: rest, idx =>
    if dist tank.loc node < CONNECT_DISTANCE then
      some { pipelineId := pid, nodeIndex := idx, sourceTank := tank.name }
    else
      seedNodeLoop dist tank pid rest (idx + 1)

/-- The seeding segment loop (gatevalve.js lines 952-968): enqueue the start
index of the first segment within `CONNECT_DISTANCE` of the tank, then
break. -/
def seedSegLoop (dist : Dist) (tank : Tank) (pid : ℕ) :
    List GeoPoint → ℕ → Option QueueEntry
  | a :: b :: rest, i =>
    if distanceToSegment dist tank.loc a b < CONNECT_DISTANCE then
      some { pipelineId := pid, nodeIndex := i, sourceTank := tank.name }
    else
      seedSegLoop dist tank pid (b :: rest) (i + 1)
  | _, _ => none

/-- Seeding contribution of one tank to one pipeline: the node-loop entry
(if any) followed by the segment-loop entry (if any)
(gatevalve.js lines 931-969). -/
def seedTankPipeline (dist : Dist) (tank : Tank) (pipeline : Pipeline) :
    List QueueEntry :=
  (seedNodeLoop dist tank pipeline.id pipeline.nodes 0).toList ++
    (seedSegLoop dist tank pipeline.id pipeline.nodes 0).toList

/-- The whole seeding phase (gatevalve.js lines 929-970): for every tank in
order, for every pipeline in order, push that tank's entries. -/
def seedQueue (dist : Dist) (tanks : List Tank) (pipelines : List Pipeline) :
    List QueueEntry :=
  tanks.flatMap fun tank =>
    pipelines.flatMap fun pipeline => seedTankPipeline dist tank pipeline

/-- The per-pipeline segment scan (gatevalve.js lines 992-1029): walk the
segments in node order from index 0; skip segments already visited or
blocked; on the first newly blocked segment record the blocker and stop
(`break`); otherwise record the segment as flowing and continue. -/
def scanSegments (dist : Dist) (closedValves : List Valve) (pid : ℕ)
    (sourceTank : String) : List GeoPoint → ℕ → BFSState → BFSState
  | a :: b :: rest, i, st =>
    let segmentKey : SegKey := (pid, i)
    if segmentKey ∈ st.visitedSegments ∨ segmentKey ∈ st.blockedSegments then
      scanSegments dist closedValves pid sourceTank (b :: rest) (i + 1) st
    else
      match getBlockingValve dist a b closedValves VALVE_BLOCK_DISTANCE with
      | some blockingValve =>
        { st with
          blockedSegments := jsSetAdd st.blockedSegments segmentKey
          blockedList := st.blockedList ++
            [{ pipelineId := pid, start := a, «end» := b, status := "blocked",
               blockedBy := blockingValve.name }] }
      | none =>
        scanSegments dist closedValves pid sourceTank (b :: rest) (i + 1)
          { st with
            visitedSegments := jsSetAdd st.visitedSegments segmentKey
            segments := st.segments ++
              [{ pipelineId := pid, start := a, «end» := b, status := "flowing",
                 sourceTank := sourceTank }] }
  | _, _, st => st

/-- The indexed consecutive-node pairs of a polyline: segment `i` is
`(nodes[i], nodes[i+1])`. -/
def segPairs (nodes : List GeoPoint) : List (ℕ × (GeoPoint × GeoPoint)) :=
  (nodes.zip nodes.tail).enum

/-- Node-to-node connections from one node of the current pipeline to the
other pipeline (gatevalve.js lines 1041-1057). -/
def nodeNodeHits (dist : Dist) (other : Pipeline) (visited : List NodeKey)
    (sourceTank : String) (currentNode : GeoPoint) : List QueueEntry :=
  other.nodes.enum.filterMap fun p =>
    if dist currentNode p.2 < CONNECT_DISTANCE ∧ (other.id, p.1) ∉ visited then
      some { pipelineId := other.id, nodeIndex := p.1, sourceTank := sourceTank }
    else none

/-- Node-to-segment connections from one node of the current pipeline to
the segments of the other pipeline (gatevalve.js lines 1059-1077). -/
def nodeSegHits (dist : Dist) (other : Pipeline) (visited : List NodeKey)
    (sourceTank : String) (currentNode : GeoPoint) : List QueueEntry :=
  (segPairs other.nodes).filterMap fun p =>
    if distanceToSegment dist currentNode p.2.1 p.2.2 < CONNECT_DISTANCE ∧
        (other.id, p.1) ∉ visited then
      some { pipelineId := other.id, nodeIndex := p.1, sourceTank := sourceTank }
    else none

/-- Segment-to-node connections from the current pipeline's segments to the
other pipeline's nodes (gatevalve.js lines 1080-1100). -/
def segNodeHits (dist : Dist) (other : Pipeline) (visited : List NodeKey)
    (sourceTank : String) (currentNodes : List GeoPoint) : List QueueEntry :=
  (currentNodes.zip currentNodes.tail).flatMap fun ab =>
    other.nodes.enum.filterMap fun p =>
      if distanceToSegment dist p.2 ab.1 ab.2 < CONNECT_DISTANCE ∧
          (other.id, p.1) ∉ visited then
        some { pipelineId := other.id, nodeIndex := p.1, sourceTank := sourceTank }
      else none

/-- The neighbor-pipeline propagation of one dequeue step
(gatevalve.js lines 1033-1101): for every other pipeline, enqueue every
node/segment proximity hit whose node key has not been visited yet. -/
def propagationEntries (dist : Dist) (pipelines : List Pipeline) (currentPid : ℕ)
    (currentNodes : List GeoPoint) (sourceTank : String)
    (visited : List NodeKey) : List QueueEntry :=
  pipelines.flatMap fun other =>
    if other.id = currentPid then []
    else
      (currentNodes.flatMap fun currentNode =>
        nodeNodeHits dist other visited sourceTank currentNode ++
          nodeSegHits dist other visited sourceTank currentNode) ++
        segNodeHits dist other visited sourceTank currentNodes

/-- The body of one dequeue step for an unvisited node key
(gatevalve.js lines 989-1101): mark the node key visited, scan the
pipeline's segments, set the pipeline status and enqueue the propagation
entries.  `st` is the state after the dequeue and the iteration-counter
increment. -/
def processNode (dist : Dist) (pipelines : List Pipeline)
    (closedValves : List Valve) (current : QueueEntry)
    (currentPipeline : Pipeline) (st : BFSState) : BFSState :=
  let currentNodes := currentPipeline.nodes
  let nodeKey : NodeKey := (current.pipelineId, current.nodeIndex)
  let st2 := { st with
    visitedPipelineNodes := jsSetAdd st.visitedPipelineNodes nodeKey }
  let st3 := scanSegments dist closedValves current.pipelineId
    current.sourceTank currentNodes 0 st2
  let st4 := { st3 with
    pipelineStatus := jsMapSet st3.pipelineStatus currentPipeline.id "flowing" }
  let newEntries := propagationEntries dist pipelines current.pipelineId
    currentNodes current.sourceTank st4.visitedPipelineNodes
  { st4 with queue := st4.queue ++ newEntries }

/-- The dispatch of one dequeue step (gatevalve.js lines 981-989): resolve
the pipeline by id (`continue` when absent), skip already-visited node
keys, otherwise process the node.  `st` is the state after the dequeue and
the iteration-counter increment. -/
def dequeueStep (dist : Dist) (pipelines : List Pipeline)
    (closedValves : List Valve) (current : QueueEntry) (st : BFSState) :
    BFSState :=
  match pipelines.find? (fun p => p.id == current.pipelineId) with
  | none => st
  | some currentPipeline =>
    if ((current.pipelineId, current.nodeIndex) : NodeKey) ∈
        st.visitedPipelineNodes then st
    else processNode dist pipelines closedValves current currentPipeline st

/-- One pass of the BFS `while` body (gatevalve.js lines 979-1101):
increment the iteration counter, dequeue, and run the dequeue step. -/
def stepOnce (dist : Dist) (pipelines : List Pipeline) (closedValves : List Valve)
    (st : BFSState) : BFSState :=
  match st.queue with
  | [] => st
  | current :: rest =>
    dequeueStep dist pipelines closedValves current
      { st with queue := rest, iterations := st.iterations + 1 }

/-- The BFS `while` loop (gatevalve.js line 978) with fuel
`maxIterations - iterations`: stop when the queue empties or the fuel (the
iteration budget) runs out. -/
def bfsLoop (dist : Dist) (pipelines : List Pipeline) (closedValves : List Valve) :
    ℕ → BFSState → BFSState
  | 0, st => st
  | fuel + 1, st =>
    if st.queue = [] then st
    else bfsLoop dist pipelines closedValves fuel (stepOnce dist pipelines closedValves st)

/-- The state at the start of the BFS phase: seeded queue, empty sets and
lists, `iterations = 0`. -/
def initialState (dist : Dist) (tanks : List Tank) (pipelines : List Pipeline) :
    BFSState :=
  { queue := seedQueue dist tanks pipelines
    visitedSegments := []
    blockedSegments := []
    visitedPipelineNodes := []
    segments := []
    blockedList := []
    pipelineStatus := []
    iterations := 0 }

/-- `gateValveSystem.valves.filter(v => !v.isOpen)`
(gatevalve.js lines 917-919). -/
def closedValvesOf (valves : List Valve) : List Valve :=
  valves.filter fun v => !v.isOpen

/-- The full BFS phase of `computeMultiTankBFS`, returning the final loop
state. -/
def computeMultiTankBFSState (dist : Dist) (valves : List Valve)
    (tanks : List Tank) (pipelines : List Pipeline) : BFSState :=
  bfsLoop dist pipelines (closedValvesOf valves) maxIterations
    (initialState dist tanks pipelines)

/-- The `flowData` result object of `computeMultiTankBFS`
(gatevalve.js lines 909-914). -/
structure FlowData where
  segments : List FlowingSegment
  blockedSegments : List BlockedSegment
  totalSegments : ℤ
  pipelineStatus : List (ℕ × String)
deriving DecidableEq, Repr

/-- `flowData.totalSegments` (gatevalve.js lines 1104-1107): the sum over
all pipelines of `nodes.length - 1` in JS number arithmetic, so a pipeline
with no nodes contributes `-1`. -/
def totalSegmentsOf (pipelines : List Pipeline) : ℤ :=
  pipelines.foldl (fun acc p => acc + ((p.nodes.length : ℤ) - 1)) 0

/-- `computeMultiTankBFS(tanks, pipelines)` (gatevalve.js lines 905-1113),
with the external map distance and the valve collection of the global
`gateValveSystem` as explicit parameters. -/
def computeMultiTankBFS (dist : Dist) (valves : List Valve)
    (tanks : List Tank) (pipelines : List Pipeline) : FlowData :=
  let stF := computeMultiTankBFSState dist valves tanks pipelines
  { segments := stF.segments
    blockedSegments := stF.blockedList
    totalSegments := totalSegmentsOf pipelines
    pipelineStatus := stF.pipelineStatus }

/-- The combined pipeline-to-pipeline proximity check of the propagation
phase (gatevalve.js lines 1039-1100): some node-to-node pair within `d`, or
some node of `A` within `d` of a segment of `B`, or some node of `B` within
`d` of a segment of `A`. -/
def pipelinesAdjacent (dist : Dist) (d : ℚ) (A B : Pipeline) : Prop :=
  (∃ a ∈ A.nodes, ∃ b ∈ B.nodes, dist a b < d) ∨
    (∃ a ∈ A.nodes, ∃ s ∈ B.nodes.zip B.nodes.tail,
      distanceToSegment dist a s.1 s.2 < d) ∨
    (∃ b ∈ B.nodes, ∃ s ∈ A.nodes.zip A.nodes.tail,
      distanceToSegment dist b s.1 s.2 < d)

instance (dist : Dist) (d : ℚ) (A B : Pipeline) :
    Decidable (pipelinesAdjacent dist d A B) := by
  unfold pipelinesAdjacent; infer_instance

/-- A concrete planar stand-in for the external mapping library's distance
function, used to instantiate witnesses and counterexamples: the L1 metric
on raw coordinates.  Every claim theorem that depends on the metric only
inspects threshold comparisons, so any realizable metric pattern suffices. -/
def testDist : Dist := fun p q => |p.lat - q.lat| + |p.lng - q.lng|

/-- The spec's formula for the total segment count:
`totalSegmentCount = sum of max(0, nodeCount-1) over all pipelines`.
Stated from the spec's words, to be compared with `totalSegmentsOf`. -/
def specTotalSegmentCount (pipelines : List Pipeline) : ℤ :=
  pipelines.foldl (fun acc p => acc + max 0 ((p.nodes.length : ℤ) - 1)) 0

/-- Default point used only to state `List.getD` lookups. -/
def originPoint : GeoPoint := { lat := 0, lng := 0 }

/-- The node list that `pipelines.find(p => p.id === pid)` resolves `pid`
to (empty when absent). -/
def nodesOfId (pipelines : List Pipeline) (pid : ℕ) : List GeoPoint :=
  ((pipelines.find? fun p => p.id == pid).map Pipeline.nodes).getD []

/-- A flowing record corresponds to a segment key: its pipeline id is the
key's id, and its endpoints are the nodes at the key's index in the
pipeline that the id resolves to. -/
def recordKeyMatch (pipelines : List Pipeline) (r : FlowingSegment)
    (k : SegKey) : Prop :=
  r.pipelineId = k.1 ∧
    r.start = (nodesOfId pipelines k.1).getD k.2 originPoint ∧
    r.«end» = (nodesOfId pipelines k.1).getD (k.2 + 1) originPoint

/-- A blocked record corresponds to a segment key in the same way. -/
def blockedKeyMatch (pipelines : List Pipeline) (r : BlockedSegment)
    (k : SegKey) : Prop :=
  r.pipelineId = k.1 ∧
    r.start = (nodesOfId pipelines k.1).getD k.2 originPoint ∧
    r.«end» = (nodesOfId pipelines k.1).getD (k.2 + 1) originPoint

/-- The partition invariant: the two key sets are duplicate-free and
disjoint, and the `flowData` record lists correspond entry-by-entry to
them. -/
def segPartitionInv (pipelines : List Pipeline) (st : BFSState) : Prop :=
  st.visitedSegments.Nodup ∧ st.blockedSegments.Nodup ∧
    st.visitedSegments.Disjoint st.blockedSegments ∧
    List.Forall₂ (recordKeyMatch pipelines) st.segments st.visitedSegments ∧
    List.Forall₂ (blockedKeyMatch pipelines) st.blockedList st.blockedSegments

/-- Every blocked record is within block distance of the closed valve it
names, and every flowing record is within block distance of no closed
valve. -/
def geoSoundInv (dist : Dist) (cvs : List Valve) (st : BFSState) : Prop :=
  (∀ r ∈ st.blockedList, ∃ v ∈ cvs, r.blockedBy = v.name ∧
      distanceToSegment dist v.loc r.start r.«end» < VALVE_BLOCK_DISTANCE) ∧
    ∀ r ∈ st.segments, ∀ w ∈ cvs,
      ¬ distanceToSegment dist w.loc r.start r.«end» < VALVE_BLOCK_DISTANCE

/-! ## Concrete test scenarios

A straight three-node pipeline along one axis, tanks and closed valves
placed on it, and a short second pipeline near its far end.  Distances are
in the units of `testDist`. -/

def straightPipeline : Pipeline :=
  { id := 1, nodes := [⟨0, 0⟩, ⟨0, 100⟩, ⟨0, 200⟩] }

def sidePipeline : Pipeline :=
  { id := 2, nodes := [⟨0, 210⟩, ⟨0, 300⟩] }

def tankAtOrigin : Tank := { name := "T", latitude := 0, longitude := 0 }

def tankNearNode2 : Tank := { name := "T", latitude := 0, longitude := 190 }

/-- Closed valve in the middle of segment 0 of `straightPipeline`. -/
def valveMidSeg0 : Valve :=
  { name := "V", latitude := 0, longitude := 50, isOpen := false }

/-- Closed valve in the middle of segment 1 of `straightPipeline`. -/
def valveMidSeg1 : Valve :=
  { name := "V", latitude := 0, longitude := 150, isOpen := false }

/-! ## A queue-flooding scenario for the iteration cap

A chain pipeline `A` → `M` → `V` reachable only from the near tank, plus a
5000-node pipeline `C` (all nodes coincident, its first segment cut by a
closed valve) and a single-node pipeline `X` next to it, both reachable
only from the far tank.  With the near tank alone the chain is explored in
8 dequeues and `V` flows.  Adding the far tank makes the one processing of
`C` enqueue 9999 copies of the entry `(X, 0)` — one per node of `C` plus
one per segment of `C` — in front of the chain entries for `V`, so the
10000-iteration cap fires before `V` is dequeued. -/

/-- Pipeline `A`: two coincident nodes at the origin (one degenerate
segment), within reach of the near tank. -/
def pipeA : Pipeline := { id := 1, nodes := [⟨0, 0⟩, ⟨0, 0⟩] }

/-- Pipeline `M`: a single node 49.9 units east: adjacent to `A` but out of
the near tank's direct reach (50.4 away). -/
def pipeM : Pipeline := { id := 2, nodes := [⟨0, 499/10⟩] }

/-- Pipeline `V`: one segment further east, adjacent only to `M`. -/
def pipeV : Pipeline := { id := 3, nodes := [⟨0, 949/10⟩, ⟨0, 1049/10⟩] }

/-- Pipeline `C`: 5000 coincident nodes far south of the chain. -/
def pipeC : Pipeline := { id := 4, nodes := List.replicate 5000 ⟨0, -500⟩ }

/-- Pipeline `X`: a single node 40 units from `C`'s nodes. -/
def pipeX : Pipeline := { id := 5, nodes := [⟨0, -460⟩] }

/-- The pipeline snapshot of the flooding scenario. -/
def floodPipes : List Pipeline := [pipeA, pipeM, pipeC, pipeX, pipeV]

/-- Tank half a unit west of `A`'s nodes. -/
def tankNearA : Tank := { name := "T1", latitude := 0, longitude := -1/2 }

/-- Tank 10 units from `C`'s nodes and exactly 50 from `X` (so `X` is not
seeded directly: `50 < 50` fails). -/
def tankFar : Tank := { name := "T2", latitude := 0, longitude := -510 }

/-- Closed valve on `C`'s nodes: every scan of `C` blocks one degenerate
segment and stops, so no scan ever walks `C`'s 4999 segments. -/
def valveAtBank : Valve :=
  { name := "W", latitude := 0, longitude := -500, isOpen := false }

/-- The flood entry: node 0 of `X`, labelled with the far tank. -/
def xEntry : QueueEntry := { pipelineId := 5, nodeIndex := 0, sourceTank := "T2" }

/-- Queue entry for node 0 of `A`. -/
def aEntry : QueueEntry := { pipelineId := 1, nodeIndex := 0, sourceTank := "T1" }

/-- Queue entry for node 1 of `A`. -/
def aEntry1 : QueueEntry := { pipelineId := 1, nodeIndex := 1, sourceTank := "T1" }

/-- Queue entry for node 0 of `M`. -/
def mEntry : QueueEntry := { pipelineId := 2, nodeIndex := 0, sourceTank := "T1" }

/-- Queue entry for node 0 of `C`. -/
def cEntry : QueueEntry := { pipelineId := 4, nodeIndex := 0, sourceTank := "T2" }

/-- Queue entry for node 0 of `V`. -/
def vEntry : QueueEntry := { pipelineId := 3, nodeIndex := 0, sourceTank := "T1" }

/-- The flowing record of `A`'s degenerate segment. -/
def flowRecA : FlowingSegment :=
  { pipelineId := 1, start := ⟨0, 0⟩, «end» := ⟨0, 0⟩, status := "flowing",
    sourceTank := "T1" }

/-- The flowing record of `V`'s segment. -/
def flowRecV : FlowingSegment :=
  { pipelineId := 3, start := ⟨0, 949/10⟩, «end» := ⟨0, 1049/10⟩,
    status := "flowing", sourceTank := "T1" }

/-- The blocked record of `C`'s first degenerate segment, cut by `W`. -/
def blockRecC : BlockedSegment :=
  { pipelineId := 4, start := ⟨0, -500⟩, «end» := ⟨0, -500⟩,
    status := "blocked", blockedBy := "W" }

/-- The body of the propagation `flatMap` for one neighbor pipeline:
`propagationEntries` is exactly `pipelines.flatMap (pipeContrib ...)`. -/
def pipeContrib (dist : Dist) (currentPid : ℕ) (currentNodes : List GeoPoint)
    (sourceTank : String) (visited : List NodeKey) (other : Pipeline) :
    List QueueEntry :=
  if other.id = currentPid then []
  else
    (currentNodes.flatMap fun currentNode =>
      nodeNodeHits dist other visited sourceTank currentNode ++
        nodeSegHits dist other visited sourceTank currentNode) ++
      segNodeHits dist other visited sourceTank currentNodes

/-- The (never dequeued) propagation block of `X`'s processing. -/
def floodProp8 : List QueueEntry :=
  propagationEntries testDist floodPipes 5 pipeX.nodes "T2"
    [(1, 0), (4, 0), (2, 0), (5, 0)]

/-! ### The states of the two-tank flooding run, dequeue by dequeue -/

/-- Two-tank run, initial state: the seeded queue. -/
def f2St0 : BFSState :=
  { queue := [aEntry, aEntry, cEntry, cEntry]
    visitedSegments := []
    blockedSegments := []
    visitedPipelineNodes := []
    segments := []
    blockedList := []
    pipelineStatus := []
    iterations := 0 }

/-- Two-tank run after dequeue 1: `A` processed, `M` enqueued thrice. -/
def f2St1 : BFSState :=
  { queue := [aEntry, cEntry, cEntry, mEntry, mEntry, mEntry]
    visitedSegments := [(1, 0)]
    blockedSegments := []
    visitedPipelineNodes := [(1, 0)]
    segments := [flowRecA]
    blockedList := []
    pipelineStatus := [(1, "flowing")]
    iterations := 1 }

/-- Two-tank run after dequeue 2: duplicate of `A` skipped. -/
def f2St2 : BFSState :=
  { f2St1 with queue := [cEntry, cEntry, mEntry, mEntry, mEntry], iterations := 2 }

/-- Two-tank run after dequeue 3: `C` processed, its first segment blocked
by `W`, and 9999 copies of the `X` entry enqueued. -/
def f2St3 : BFSState :=
  { queue := [cEntry, mEntry, mEntry, mEntry] ++ List.replicate 9999 xEntry
    visitedSegments := [(1, 0)]
    blockedSegments := [(4, 0)]
    visitedPipelineNodes := [(1, 0), (4, 0)]
    segments := [flowRecA]
    blockedList := [blockRecC]
    pipelineStatus := [(1, "flowing"), (4, "flowing")]
    iterations := 3 }

/-- Two-tank run after dequeue 4: duplicate of `C` skipped. -/
def f2St4 : BFSState :=
  { f2St3 with queue := [mEntry, mEntry, mEntry] ++ List.replicate 9999 xEntry,
               iterations := 4 }

/-- Two-tank run after dequeue 5: `M` processed; the entries for `(A, 1)`
and `V` land behind the 9999-entry flood. -/
def f2St5 : BFSState :=
  { queue := ([mEntry, mEntry] ++ List.replicate 9999 xEntry) ++
      [aEntry1, vEntry, vEntry]
    visitedSegments := [(1, 0)]
    blockedSegments := [(4, 0)]
    visitedPipelineNodes := [(1, 0), (4, 0), (2, 0)]
    segments := [flowRecA]
    blockedList := [blockRecC]
    pipelineStatus := [(1, "flowing"), (4, "flowing"), (2, "flowing")]
    iterations := 5 }

/-- Two-tank run after dequeue 6: duplicate of `M` skipped. -/
def f2St6 : BFSState :=
  { f2St5 with queue := ([mEntry] ++ List.replicate 9999 xEntry) ++
      [aEntry1, vEntry, vEntry],
               iterations := 6 }

/-- Two-tank run after dequeue 7: duplicate of `M` skipped. -/
def f2St7 : BFSState :=
  { f2St5 with queue := List.replicate 9999 xEntry ++ [aEntry1, vEntry, vEntry],
               iterations := 7 }

/-- Two-tank run after dequeue 8: `X` processed; from here on every dequeue
within the remaining budget of 9992 skips one of the 9998 queued duplicates
of the already-visited `X` entry. -/
def f2St8 : BFSState :=
  { queue := (List.replicate 9998 xEntry ++ [aEntry1, vEntry, vEntry]) ++
      floodProp8
    visitedSegments := [(1, 0)]
    blockedSegments := [(4, 0)]
    visitedPipelineNodes := [(1, 0), (4, 0), (2, 0), (5, 0)]
    segments := [flowRecA]
    blockedList := [blockRecC]
    pipelineStatus := [(1, "flowing"), (4, "flowing"), (2, "flowing"),
      (5, "flowing")]
    iterations := 8 }

/-! ### The states of the one-tank run, dequeue by dequeue -/

/-- One-tank run, initial state: the seeded queue. -/
def r1St0 : BFSState :=
  { queue := [aEntry, aEntry]
    visitedSegments := []
    blockedSegments := []
    visitedPipelineNodes := []
    segments := []
    blockedList := []
    pipelineStatus := []
    iterations := 0 }

/-- One-tank run after dequeue 1: `A` processed. -/
def r1St1 : BFSState :=
  { queue := [aEntry, mEntry, mEntry, mEntry]
    visitedSegments := [(1, 0)]
    blockedSegments := []
    visitedPipelineNodes := [(1, 0)]
    segments := [flowRecA]
    blockedList := []
    pipelineStatus := [(1, "flowing")]
    iterations := 1 }

/-- One-tank run after dequeue 2: duplicate of `A` skipped. -/
def r1St2 : BFSState :=
  { r1St1 with queue := [mEntry, mEntry, mEntry], iterations := 2 }

/-- One-tank run after dequeue 3: `M` processed. -/
def r1St3 : BFSState :=
  { queue := [mEntry, mEntry, aEntry1, vEntry, vEntry]
    visitedSegments := [(1, 0)]
    blockedSegments := []
    visitedPipelineNodes := [(1, 0), (2, 0)]
    segments := [flowRecA]
    blockedList := []
    pipelineStatus := [(1, "flowing"), (2, "flowing")]
    iterations := 3 }

/-- One-tank run after dequeue 4: duplicate of `M` skipped. -/
def r1St4 : BFSState :=
  { r1St3 with queue := [mEntry, aEntry1, vEntry, vEntry], iterations := 4 }

/-- One-tank run after dequeue 5: duplicate of `M` skipped. -/
def r1St5 : BFSState :=
  { r1St3 with queue := [aEntry1, vEntry, vEntry], iterations := 5 }

/-- One-tank run after dequeue 6: `(A, 1)` processed, nothing new. -/
def r1St6 : BFSState :=
  { queue := [vEntry, vEntry]
    visitedSegments := [(1, 0)]
    blockedSegments := []
    visitedPipelineNodes := [(1, 0), (2, 0), (1, 1)]
    segments := [flowRecA]
    blockedList := []
    pipelineStatus := [(1, "flowing"), (2, "flowing")]
    iterations := 6 }

/-- One-tank run after dequeue 7: `V` processed, its segment flowing. -/
def r1St7 : BFSState :=
  { queue := [vEntry]
    visitedSegments := [(1, 0), (3, 0)]
    blockedSegments := []
    visitedPipelineNodes := [(1, 0), (2, 0), (1, 1), (3, 0)]
    segments := [flowRecA, flowRecV]
    blockedList := []
    pipelineStatus := [(1, "flowing"), (2, "flowing"), (3, "flowing")]
    iterations := 7 }

/-- One-tank run after dequeue 8: duplicate of `V` skipped; queue empty. -/
def r1St8 : BFSState :=
  { r1St7 with queue := [], iterations := 8 }

/-! ## A pure model of the per-pipeline segment classification

Every dequeue that processes a node key of a pipeline runs the same scan
over that pipeline's segments from index 0 (gatevalve.js line 992 always
starts at segment 0).  Whether a segment is blocked depends only on the
valves, so the classified set of one pipeline is a function of how many of
its node keys have been processed: each scan extends the classified
prefix to (and including) the next blocked segment. -/

/-- Whether the closed valves block segment `i` of a node polyline. -/
def blockAt (dist : Dist) (cvs : List Valve) (ns : List GeoPoint) (i : ℕ) :
    Bool :=
  match (ns.zip ns.tail).get? i with
  | some ab => (getBlockingValve dist ab.1 ab.2 cvs VALVE_BLOCK_DISTANCE).isSome
  | none => false

/-- Pure model of one segment scan over a list of segment indices: skip
classified indices, stop at (and classify) the first unclassified blocked
one, classify unclassified clear ones. -/
def scanModel (bb : ℕ → Bool) : List ℕ → Finset ℕ → Finset ℕ
  | [], C => C
  | j :: js, C =>
    if j ∈ C then scanModel bb js C
    else if bb j then insert j C
    else scanModel bb js (insert j C)

/-- The classified segment set of one pipeline after `k` scans. -/
def pipeCover (bb : ℕ → Bool) (idxs : List ℕ) : ℕ → Finset ℕ
  | 0 => ∅
  | k + 1 => scanModel bb idxs (pipeCover bb idxs k)

/-- The number of processed node keys of one pipeline. -/
def countKeys (pid : ℕ) (vpn : List NodeKey) : ℕ :=
  (vpn.filter fun k => k.1 == pid).length

/-- The model cover of pipeline `pid` in a snapshot, after `k` scans. -/
def coverOf (dist : Dist) (ps : List Pipeline) (cvs : List Valve)
    (pid k : ℕ) : Finset ℕ :=
  pipeCover (blockAt dist cvs (nodesOfId ps pid))
    (List.range' 0 ((nodesOfId ps pid).zip (nodesOfId ps pid).tail).length) k

/-- The characterization invariant: for every pipeline id, the flowing and
blocked key sets are exactly the model cover at that pipeline's
processed-key count, split by `blockAt`. -/
def charInv (dist : Dist) (ps : List Pipeline) (cvs : List Valve)
    (st : BFSState) : Prop :=
  ∀ pid j,
    (((pid, j) : SegKey) ∈ st.visitedSegments ↔
      (j ∈ coverOf dist ps cvs pid (countKeys pid st.visitedPipelineNodes) ∧
        blockAt dist cvs (nodesOfId ps pid) j = false)) ∧
    (((pid, j) : SegKey) ∈ st.blockedSegments ↔
      (j ∈ coverOf dist ps cvs pid (countKeys pid st.visitedPipelineNodes) ∧
        blockAt dist cvs (nodesOfId ps pid) j = true))

/-! ## Reachability of node keys through propagation -/

/-- Key `b` is geometrically hit by the neighbor propagation of a
processing of key `a`: some other pipeline with `b`'s id has a node or
segment-start at index `b.2` within connect distance of `a`'s pipeline
(node-to-node, node-to-segment or segment-to-node). -/
def KeyHit (dist : Dist) (ps : List Pipeline) (a b : NodeKey) : Prop :=
  ∃ other ∈ ps, ¬other.id = a.1 ∧ other.id = b.1 ∧
    ((∃ cn ∈ nodesOfId ps a.1, ∃ p ∈ other.nodes.enum,
        p.1 = b.2 ∧ dist cn p.2 < CONNECT_DISTANCE) ∨
      (∃ cn ∈ nodesOfId ps a.1, ∃ p ∈ segPairs other.nodes,
        p.1 = b.2 ∧ distanceToSegment dist cn p.2.1 p.2.2 < CONNECT_DISTANCE) ∨
      (∃ ab ∈ (nodesOfId ps a.1).zip (nodesOfId ps a.1).tail,
        ∃ p ∈ other.nodes.enum,
          p.1 = b.2 ∧ distanceToSegment dist p.2 ab.1 ab.2 < CONNECT_DISTANCE))

/-- Node keys reachable from the seed entries through propagation hits. -/
inductive Reach (dist : Dist) (ps : List Pipeline) (seeds : List QueueEntry) :
    NodeKey → Prop
  | seed (e : QueueEntry) (he : e ∈ seeds) :
      Reach dist ps seeds (e.pipelineId, e.nodeIndex)
  | step (a b : NodeKey) (ha : Reach dist ps seeds a)
      (hb : KeyHit dist ps a b) : Reach dist ps seeds b

/-- Soundness invariant: every queued entry and every visited node key is
reachable from the seeds. -/
def soundInv (dist : Dist) (ps : List Pipeline) (seeds : List QueueEntry)
    (st : BFSState) : Prop :=
  (∀ e ∈ st.queue, Reach dist ps seeds (e.pipelineId, e.nodeIndex)) ∧
    ∀ k ∈ st.visitedPipelineNodes, Reach dist ps seeds k

/-- Completeness invariant: queued entries resolve to a pipeline, the
visited set is hit-closed up to the queue, and every seed is visited or
still queued. -/
def closedInv (dist : Dist) (ps : List Pipeline) (seeds : List QueueEntry)
    (st : BFSState) : Prop :=
  (∀ e ∈ st.queue, (ps.find? fun p => p.id == e.pipelineId).isSome) ∧
    (∀ a ∈ st.visitedPipelineNodes, ∀ b, KeyHit dist ps a b →
      b ∈ st.visitedPipelineNodes ∨
        ∃ e ∈ st.queue, ((e.pipelineId, e.nodeIndex) : NodeKey) = b) ∧
    ∀ e ∈ seeds, ((e.pipelineId, e.nodeIndex) : NodeKey) ∈
        st.visitedPipelineNodes ∨
      ∃ e' ∈ st.queue,
        ((e'.pipelineId, e'.nodeIndex) : NodeKey) =
          (e.pipelineId, e.nodeIndex)

/-! ## Helper lemmas: `getBlockingValve` -/

theorem getBlockingValve_eq_some {dist : Dist} {a b : GeoPoint} {cvs : List Valve}
    {d : ℚ} {v : Valve} (h : getBlockingValve dist a b cvs d = some v) :
    distanceToSegment dist v.loc a b < d ∧
      ∃ l1 l2, cvs = l1 ++ v :: l2 ∧
        ∀ w ∈ l1, ¬ distanceToSegment dist w.loc a b < d := by
  induction cvs with
  | nil => simp [getBlockingValve] at h
  | cons w rest ih =>
    rw [getBlockingValve] at h
    by_cases hw : distanceToSegment dist w.loc a b < d
    · simp only [if_pos hw, Option.some.injEq] at h
      subst h
      exact ⟨hw, [], rest, rfl, by simp⟩
    · simp only [if_neg hw] at h
      obtain ⟨h1, l1, l2, hsplit, hfirst⟩ := ih h
      refine ⟨h1, w :: l1, l2, by simp [hsplit], ?_⟩
      intro u hu
      rcases List.mem_cons.mp hu with rfl | hu
      · exact hw
      · exact hfirst u hu

theorem getBlockingValve_eq_none {dist : Dist} {a b : GeoPoint} {cvs : List Valve}
    {d : ℚ} :
    getBlockingValve dist a b cvs d = none ↔
      ∀ w ∈ cvs, ¬ distanceToSegment dist w.loc a b < d := by
  induction cvs with
  | nil => simp [getBlockingValve]
  | cons w rest ih =>
    rw [getBlockingValve]
    by_cases hw : distanceToSegment dist w.loc a b < d
    · simp [if_pos hw, hw]
    · simp only [if_neg hw, ih]
      constructor
      · intro h u hu
        rcases List.mem_cons.mp hu with rfl | hu
        · exact hw
        · exact h u hu
      · intro h u hu
        exact h u (List.mem_cons_of_mem _ hu)

theorem mem_closedValvesOf {valves : List Valve} {w : Valve} :
    w ∈ closedValvesOf valves ↔ w ∈ valves ∧ w.isOpen = false := by
  simp [closedValvesOf, List.mem_filter]

theorem getBlockingValve_mem {dist : Dist} {a b : GeoPoint} {cvs : List Valve}
    {d : ℚ} {v : Valve} (h : getBlockingValve dist a b cvs d = some v) :
    v ∈ cvs := by
  obtain ⟨-, l1, l2, hsplit, -⟩ := getBlockingValve_eq_some h
  subst hsplit
  simp

/-! ## Helper lemmas: iteration counts -/

theorem scanSegments_iterations (dist : Dist) (cvs : List Valve) (pid : ℕ)
    (src : String) :
    ∀ (nodes : List GeoPoint) (i : ℕ) (st : BFSState),
      (scanSegments dist cvs pid src nodes i st).iterations = st.iterations
  | [], _, st => rfl
  | [_], _, st => rfl
  | a :: b :: rest, i, st => by
    rw [scanSegments]
    by_cases hmem : ((pid, i) : SegKey) ∈ st.visitedSegments ∨
        ((pid, i) : SegKey) ∈ st.blockedSegments
    · simp only [if_pos hmem]
      exact scanSegments_iterations dist cvs pid src (b :: rest) (i + 1) st
    · simp only [if_neg hmem]
      cases getBlockingValve dist a b cvs VALVE_BLOCK_DISTANCE with
      | some w => rfl
      | none => exact scanSegments_iterations dist cvs pid src (b :: rest) (i + 1) _

/-! ## Dispatch equations for the loop body -/

theorem stepOnce_eq_nil {dist : Dist} {pipelines : List Pipeline}
    {cvs : List Valve} {st : BFSState} (hq : st.queue = []) :
    stepOnce dist pipelines cvs st = st := by
  obtain ⟨q, vs, bs, vpn, segs, bl, pst, it⟩ := st
  dsimp only at hq
  subst hq
  rfl

theorem stepOnce_eq_cons {dist : Dist} {pipelines : List Pipeline}
    {cvs : List Valve} {st : BFSState} {current : QueueEntry}
    {rest : List QueueEntry} (hq : st.queue = current :: rest) :
    stepOnce dist pipelines cvs st =
      dequeueStep dist pipelines cvs current
        { st with queue := rest, iterations := st.iterations + 1 } := by
  obtain ⟨q, vs, bs, vpn, segs, bl, pst, it⟩ := st
  dsimp only at hq
  subst hq
  rfl

theorem dequeueStep_eq_none {dist : Dist} {pipelines : List Pipeline}
    {cvs : List Valve} {current : QueueEntry} {st : BFSState}
    (hf : pipelines.find? (fun p => p.id == current.pipelineId) = none) :
    dequeueStep dist pipelines cvs current st = st := by
  rw [dequeueStep, hf]

theorem dequeueStep_eq_visited {dist : Dist} {pipelines : List Pipeline}
    {cvs : List Valve} {current : QueueEntry} (st : BFSState)
    {currentPipeline : Pipeline}
    (hf : pipelines.find? (fun p => p.id == current.pipelineId) =
      some currentPipeline)
    (hv : ((current.pipelineId, current.nodeIndex) : NodeKey) ∈
      st.visitedPipelineNodes) :
    dequeueStep dist pipelines cvs current st = st := by
  rw [dequeueStep, hf]
  exact if_pos hv

theorem dequeueStep_eq_process {dist : Dist} {pipelines : List Pipeline}
    {cvs : List Valve} {current : QueueEntry} (st : BFSState)
    {currentPipeline : Pipeline}
    (hf : pipelines.find? (fun p => p.id == current.pipelineId) =
      some currentPipeline)
    (hv : ((current.pipelineId, current.nodeIndex) : NodeKey) ∉
      st.visitedPipelineNodes) :
    dequeueStep dist pipelines cvs current st =
      processNode dist pipelines cvs current currentPipeline st := by
  rw [dequeueStep, hf]
  exact if_neg hv

theorem processNode_iterations (dist : Dist) (pipelines : List Pipeline)
    (cvs : List Valve) (current : QueueEntry) (currentPipeline : Pipeline)
    (st : BFSState) :
    (processNode dist pipelines cvs current currentPipeline st).iterations =
      st.iterations := by
  simp [processNode, scanSegments_iterations]

theorem stepOnce_iterations (dist : Dist) (pipelines : List Pipeline)
    (cvs : List Valve) (st : BFSState) :
    (stepOnce dist pipelines cvs st).iterations ≤ st.iterations + 1 := by
  cases hq : st.queue with
  | nil => rw [stepOnce_eq_nil hq]; exact Nat.le_succ _
  | cons current rest =>
    rw [stepOnce_eq_cons hq]
    cases hf : pipelines.find? (fun p => p.id == current.pipelineId) with
    | none => rw [dequeueStep_eq_none hf]
    | some currentPipeline =>
      by_cases hv : ((current.pipelineId, current.nodeIndex) : NodeKey) ∈
          st.visitedPipelineNodes
      · rw [dequeueStep_eq_visited
          { st with queue := rest, iterations := st.iterations + 1 } hf hv]
      · rw [dequeueStep_eq_process
          { st with queue := rest, iterations := st.iterations + 1 } hf hv,
          processNode_iterations]

/-- Generic induction principle for the BFS loop. -/
theorem bfsLoop_induction {dist : Dist} {pipelines : List Pipeline}
    {cvs : List Valve} (P : BFSState → Prop)
    (hstep : ∀ st, st.queue ≠ [] → P st → P (stepOnce dist pipelines cvs st)) :
    ∀ (fuel : ℕ) (st : BFSState), P st → P (bfsLoop dist pipelines cvs fuel st)
  | 0, _, h => h
  | fuel + 1, st, h => by
    rw [bfsLoop]
    by_cases hq : st.queue = []
    · rwa [if_pos hq]
    · rw [if_neg hq]
      exact bfsLoop_induction P hstep fuel _ (hstep st hq h)

/-- Case analysis of one loop pass on a nonempty queue: either it is a
`continue` (only the queue shrinks and the counter advances), or an
unvisited node key of an existing pipeline is processed. -/
theorem stepOnce_cases (dist : Dist) (pipelines : List Pipeline)
    (cvs : List Valve) (st : BFSState) {current : QueueEntry}
    {rest : List QueueEntry} (hq : st.queue = current :: rest) :
    stepOnce dist pipelines cvs st =
        { st with queue := rest, iterations := st.iterations + 1 } ∨
      ∃ currentPipeline,
        pipelines.find? (fun p => p.id == current.pipelineId) =
            some currentPipeline ∧
          ((current.pipelineId, current.nodeIndex) : NodeKey) ∉
            st.visitedPipelineNodes ∧
          stepOnce dist pipelines cvs st =
            processNode dist pipelines cvs current currentPipeline
              { st with queue := rest, iterations := st.iterations + 1 } := by
  rw [stepOnce_eq_cons hq]
  cases hf : pipelines.find? (fun p => p.id == current.pipelineId) with
  | none => exact Or.inl (dequeueStep_eq_none hf)
  | some currentPipeline =>
    by_cases hv : ((current.pipelineId, current.nodeIndex) : NodeKey) ∈
        st.visitedPipelineNodes
    · exact Or.inl (dequeueStep_eq_visited
        { st with queue := rest, iterations := st.iterations + 1 } hf hv)
    · exact Or.inr ⟨currentPipeline, rfl, hv, dequeueStep_eq_process
        { st with queue := rest, iterations := st.iterations + 1 } hf hv⟩

/-! ## Per-field behavior of the segment scan -/

theorem scanSegments_queue (dist : Dist) (cvs : List Valve) (pid : ℕ)
    (src : String) :
    ∀ (nodes : List GeoPoint) (i : ℕ) (st : BFSState),
      (scanSegments dist cvs pid src nodes i st).queue = st.queue
  | [], _, st => rfl
  | [_], _, st => rfl
  | a :: b :: rest, i, st => by
    rw [scanSegments]
    by_cases hmem : ((pid, i) : SegKey) ∈ st.visitedSegments ∨
        ((pid, i) : SegKey) ∈ st.blockedSegments
    · simp only [if_pos hmem]
      exact scanSegments_queue dist cvs pid src (b :: rest) (i + 1) st
    · simp only [if_neg hmem]
      cases getBlockingValve dist a b cvs VALVE_BLOCK_DISTANCE with
      | some w => rfl
      | none => exact scanSegments_queue dist cvs pid src (b :: rest) (i + 1) _

theorem scanSegments_visitedPipelineNodes (dist : Dist) (cvs : List Valve)
    (pid : ℕ) (src : String) :
    ∀ (nodes : List GeoPoint) (i : ℕ) (st : BFSState),
      (scanSegments dist cvs pid src nodes i st).visitedPipelineNodes =
        st.visitedPipelineNodes
  | [], _, st => rfl
  | [_], _, st => rfl
  | a :: b :: rest, i, st => by
    rw [scanSegments]
    by_cases hmem : ((pid, i) : SegKey) ∈ st.visitedSegments ∨
        ((pid, i) : SegKey) ∈ st.blockedSegments
    · simp only [if_pos hmem]
      exact scanSegments_visitedPipelineNodes dist cvs pid src (b :: rest) (i + 1) st
    · simp only [if_neg hmem]
      cases getBlockingValve dist a b cvs VALVE_BLOCK_DISTANCE with
      | some w => rfl
      | none =>
        exact scanSegments_visitedPipelineNodes dist cvs pid src (b :: rest) (i + 1) _

theorem processNode_queue (dist : Dist) (pipelines : List Pipeline)
    (cvs : List Valve) (current : QueueEntry) (currentPipeline : Pipeline)
    (st : BFSState) :
    (processNode dist pipelines cvs current currentPipeline st).queue =
      st.queue ++ propagationEntries dist pipelines current.pipelineId
        currentPipeline.nodes current.sourceTank
        (jsSetAdd st.visitedPipelineNodes
          (current.pipelineId, current.nodeIndex)) := by
  simp [processNode, scanSegments_queue, scanSegments_visitedPipelineNodes]

theorem processNode_visitedPipelineNodes (dist : Dist)
    (pipelines : List Pipeline) (cvs : List Valve) (current : QueueEntry)
    (currentPipeline : Pipeline) (st : BFSState) :
    (processNode dist pipelines cvs current currentPipeline
        st).visitedPipelineNodes =
      jsSetAdd st.visitedPipelineNodes
        (current.pipelineId, current.nodeIndex) := by
  simp [processNode, scanSegments_visitedPipelineNodes]

/-- A property of the segment-classification fields
(`visitedSegments`, `blockedSegments`, `segments`, `blockedList`) that is
insensitive to the queue, the visited-node set, the pipeline status map and
the iteration counter, and preserved by every segment scan, is preserved by
`processNode`. -/
theorem processNode_core_pres {dist : Dist} {pipelines : List Pipeline}
    {cvs : List Valve} (P : BFSState → Prop)
    (hframe : ∀ (st : BFSState) q vpn pst it, P st →
      P { queue := q, visitedSegments := st.visitedSegments,
          blockedSegments := st.blockedSegments, visitedPipelineNodes := vpn,
          segments := st.segments, blockedList := st.blockedList,
          pipelineStatus := pst, iterations := it })
    (hscan : ∀ (current : QueueEntry) (currentPipeline : Pipeline)
      (st : BFSState),
      pipelines.find? (fun p => p.id == current.pipelineId) =
          some currentPipeline →
        P st → P (scanSegments dist cvs current.pipelineId current.sourceTank
          currentPipeline.nodes 0 st))
    (current : QueueEntry) (currentPipeline : Pipeline) (st : BFSState)
    (hf : pipelines.find? (fun p => p.id == current.pipelineId) =
      some currentPipeline)
    (h : P st) :
    P (processNode dist pipelines cvs current currentPipeline st) := by
  have h2 := hframe st st.queue
    (jsSetAdd st.visitedPipelineNodes (current.pipelineId, current.nodeIndex))
    st.pipelineStatus st.iterations h
  have h3 := hscan current currentPipeline _ hf h2
  exact hframe (scanSegments dist cvs current.pipelineId current.sourceTank
    currentPipeline.nodes 0
    { st with visitedPipelineNodes := (jsSetAdd st.visitedPipelineNodes
        (current.pipelineId, current.nodeIndex)) }) _ _ _ _ h3

/-- Frame-invariant version of the loop induction: a property of the
segment-classification fields, insensitive to the bookkeeping fields and
preserved by every segment scan, is preserved by the whole BFS loop. -/
theorem bfsLoop_frame_invariant {dist : Dist} {pipelines : List Pipeline}
    {cvs : List Valve} (P : BFSState → Prop)
    (hframe : ∀ (st : BFSState) q vpn pst it, P st →
      P { queue := q, visitedSegments := st.visitedSegments,
          blockedSegments := st.blockedSegments, visitedPipelineNodes := vpn,
          segments := st.segments, blockedList := st.blockedList,
          pipelineStatus := pst, iterations := it })
    (hscan : ∀ (current : QueueEntry) (currentPipeline : Pipeline)
      (st : BFSState),
      pipelines.find? (fun p => p.id == current.pipelineId) =
          some currentPipeline →
        P st → P (scanSegments dist cvs current.pipelineId current.sourceTank
          currentPipeline.nodes 0 st))
    (fuel : ℕ) (st : BFSState) (h : P st) :
    P (bfsLoop dist pipelines cvs fuel st) := by
  refine bfsLoop_induction P ?_ fuel st h
  intro st hq hP
  cases hq' : st.queue with
  | nil => exact absurd hq' hq
  | cons current rest =>
    rcases stepOnce_cases dist pipelines cvs st hq' with heq | ⟨cp, hf, hv, heq⟩
    · rw [heq]
      exact hframe st rest st.visitedPipelineNodes st.pipelineStatus
        (st.iterations + 1) hP
    · rw [heq]
      exact processNode_core_pres P hframe hscan current cp _ hf
        (hframe st rest st.visitedPipelineNodes st.pipelineStatus
          (st.iterations + 1) hP)

/-! ## The segment partition invariant (claim C3) -/

theorem getD_of_drop_eq_cons {α : Type} {l : List α} {i : ℕ} {a : α}
    {tl : List α} (h : l.drop i = a :: tl) (d : α) : l.getD i d = a := by
  have hi : i < l.length := by
    by_contra hle
    push_neg at hle
    rw [List.drop_eq_nil_of_le hle] at h
    cases h
  rw [List.getD_eq_getElem l d hi]
  rw [List.drop_eq_getElem_cons hi] at h
  exact (List.cons.injEq _ _ _ _ ▸ h).1

theorem drop_succ_of_drop_eq_cons {α : Type} {l : List α} {i : ℕ} {a : α}
    {tl : List α} (h : l.drop i = a :: tl) : l.drop (i + 1) = tl := by
  rw [← List.tail_drop, h, List.tail_cons]

theorem scanSegments_partition (dist : Dist) (cvs : List Valve) (pid : ℕ)
    (src : String) (pipelines : List Pipeline) (nodes : List GeoPoint)
    (hnodes : nodesOfId pipelines pid = nodes) :
    ∀ (suf : List GeoPoint) (i : ℕ), suf = nodes.drop i →
      ∀ st : BFSState, segPartitionInv pipelines st →
        segPartitionInv pipelines (scanSegments dist cvs pid src suf i st)
  | [], _, _, st, h => h
  | [_], _, _, st, h => h
  | a :: b :: rest, i, hsuf, st, h => by
    have hda : nodes.getD i originPoint = a :=
      getD_of_drop_eq_cons hsuf.symm originPoint
    have hdrop1 : nodes.drop (i + 1) = b :: rest :=
      drop_succ_of_drop_eq_cons hsuf.symm
    have hdb : nodes.getD (i + 1) originPoint = b :=
      getD_of_drop_eq_cons hdrop1 originPoint
    rw [scanSegments]
    by_cases hmem : ((pid, i) : SegKey) ∈ st.visitedSegments ∨
        ((pid, i) : SegKey) ∈ st.blockedSegments
    · rw [if_pos hmem]
      exact scanSegments_partition dist cvs pid src pipelines nodes hnodes
        (b :: rest) (i + 1) hdrop1.symm st h
    · rw [if_neg hmem]
      push_neg at hmem
      obtain ⟨hnv, hnb⟩ := hmem
      obtain ⟨h1, h2, h3, h4, h5⟩ := h
      cases hbv : getBlockingValve dist a b cvs VALVE_BLOCK_DISTANCE with
      | some bv =>
        refine ⟨h1, ?_, ?_, h4, ?_⟩
        · show (jsSetAdd st.blockedSegments (pid, i)).Nodup
          rw [jsSetAdd, if_neg hnb]
          simp [List.nodup_append, h2, hnb]
        · show st.visitedSegments.Disjoint (jsSetAdd st.blockedSegments (pid, i))
          rw [jsSetAdd, if_neg hnb]
          simp [List.disjoint_append_right, h3, hnv]
        · show List.Forall₂ (blockedKeyMatch pipelines)
            (st.blockedList ++ [_]) (jsSetAdd st.blockedSegments (pid, i))
          rw [jsSetAdd, if_neg hnb]
          refine List.rel_append h5 ?_
          refine List.Forall₂.cons ?_ List.Forall₂.nil
          exact ⟨rfl, by rw [hnodes, hda], by rw [hnodes, hdb]⟩
      | none =>
        refine scanSegments_partition dist cvs pid src pipelines nodes hnodes
          (b :: rest) (i + 1) hdrop1.symm _ ⟨?_, h2, ?_, ?_, h5⟩
        · show (jsSetAdd st.visitedSegments (pid, i)).Nodup
          rw [jsSetAdd, if_neg hnv]
          simp [List.nodup_append, h1, hnv]
        · show (jsSetAdd st.visitedSegments (pid, i)).Disjoint st.blockedSegments
          rw [jsSetAdd, if_neg hnv]
          intro x hx
          rcases List.mem_append.mp hx with hx | hx
          · exact h3 hx
          · rcases List.mem_singleton.mp hx with rfl
            exact hnb
        · show List.Forall₂ (recordKeyMatch pipelines)
            (st.segments ++ [_]) (jsSetAdd st.visitedSegments (pid, i))
          rw [jsSetAdd, if_neg hnv]
          refine List.rel_append h4 ?_
          refine List.Forall₂.cons ?_ List.Forall₂.nil
          exact ⟨rfl, by rw [hnodes, hda], by rw [hnodes, hdb]⟩

/-- The partition invariant holds for the final state of every flow
computation. -/
theorem compute_segPartitionInv (dist : Dist) (valves : List Valve)
    (tanks : List Tank) (pipelines : List Pipeline) :
    segPartitionInv pipelines
      (computeMultiTankBFSState dist valves tanks pipelines) := by
  refine bfsLoop_frame_invariant (segPartitionInv pipelines) ?_ ?_
    maxIterations (initialState dist tanks pipelines) ?_
  · intro st q vpn pst it h
    exact h
  · intro current cp st hf h
    have hnodes : nodesOfId pipelines current.pipelineId = cp.nodes := by
      rw [nodesOfId, hf]
      rfl
    exact scanSegments_partition dist (closedValvesOf valves) current.pipelineId
      current.sourceTank pipelines cp.nodes hnodes cp.nodes 0
      (List.drop_zero cp.nodes).symm st h
  · exact ⟨List.nodup_nil, List.nodup_nil, List.disjoint_nil_left _,
      List.Forall₂.nil, List.Forall₂.nil⟩

/-! ## The geometric soundness invariant (claim C10) -/

theorem scanSegments_geoSound (dist : Dist) (cvs : List Valve) (pid : ℕ)
    (src : String) :
    ∀ (nodes : List GeoPoint) (i : ℕ) (st : BFSState),
      geoSoundInv dist cvs st →
        geoSoundInv dist cvs (scanSegments dist cvs pid src nodes i st)
  | [], _, st, h => h
  | [_], _, st, h => h
  | a :: b :: rest, i, st, h => by
    rw [scanSegments]
    by_cases hmem : ((pid, i) : SegKey) ∈ st.visitedSegments ∨
        ((pid, i) : SegKey) ∈ st.blockedSegments
    · rw [if_pos hmem]
      exact scanSegments_geoSound dist cvs pid src (b :: rest) (i + 1) st h
    · rw [if_neg hmem]
      obtain ⟨hb, hflow⟩ := h
      cases hbv : getBlockingValve dist a b cvs VALVE_BLOCK_DISTANCE with
      | some bv =>
        refine ⟨?_, hflow⟩
        intro r hr
        rcases List.mem_append.mp hr with hr | hr
        · exact hb r hr
        · rcases List.mem_singleton.mp hr with rfl
          exact ⟨bv, getBlockingValve_mem hbv, rfl,
            (getBlockingValve_eq_some hbv).1⟩
      | none =>
        refine scanSegments_geoSound dist cvs pid src (b :: rest) (i + 1) _
          ⟨hb, ?_⟩
        intro r hr
        rcases List.mem_append.mp hr with hr | hr
        · exact hflow r hr
        · rcases List.mem_singleton.mp hr with rfl
          exact getBlockingValve_eq_none.mp hbv

/-- The geometric soundness invariant holds for the final state of every
flow computation. -/
theorem compute_geoSound (dist : Dist) (valves : List Valve)
    (tanks : List Tank) (pipelines : List Pipeline) :
    geoSoundInv dist (closedValvesOf valves)
      (computeMultiTankBFSState dist valves tanks pipelines) := by
  refine bfsLoop_frame_invariant (geoSoundInv dist (closedValvesOf valves))
    ?_ ?_ maxIterations (initialState dist tanks pipelines) ?_
  · intro st q vpn pst it h
    exact h
  · intro current cp st _ h
    exact scanSegments_geoSound dist (closedValvesOf valves)
      current.pipelineId current.sourceTank cp.nodes 0 st h
  · exact ⟨by simp [initialState], by simp [initialState]⟩

theorem bfsLoop_iterations (dist : Dist) (pipelines : List Pipeline)
    (cvs : List Valve) :
    ∀ (fuel : ℕ) (st : BFSState),
      (bfsLoop dist pipelines cvs fuel st).iterations ≤ st.iterations + fuel
  | 0, st => Nat.le_refl _
  | fuel + 1, st => by
    rw [bfsLoop]
    by_cases hq : st.queue = []
    · simp only [if_pos hq]
      exact Nat.le_add_right _ _
    · simp only [if_neg hq]
      calc (bfsLoop dist pipelines cvs fuel (stepOnce dist pipelines cvs st)).iterations
          ≤ (stepOnce dist pipelines cvs st).iterations + fuel :=
            bfsLoop_iterations dist pipelines cvs fuel _
        _ ≤ (st.iterations + 1) + fuel :=
            Nat.add_le_add_right (stepOnce_iterations dist pipelines cvs st) fuel
        _ = st.iterations + (fuel + 1) := by omega

/-! ## First-match characterization of the seeding loops (claim C2) -/

theorem seedNodeLoop_spec (dist : Dist) (tank : Tank) (pid : ℕ) :
    ∀ (nodes : List GeoPoint) (base : ℕ) (e : QueueEntry),
      seedNodeLoop dist tank pid nodes base = some e →
      ∃ j, j < nodes.length ∧
        e = { pipelineId := pid, nodeIndex := base + j,
              sourceTank := tank.name } ∧
        dist tank.loc (nodes.getD j originPoint) < CONNECT_DISTANCE ∧
        ∀ j' < j, ¬ dist tank.loc (nodes.getD j' originPoint) < CONNECT_DISTANCE
  | [], base, e => by
    intro h
    simp [seedNodeLoop] at h
  | node :: rest, base, e => by
    intro h
    rw [seedNodeLoop] at h
    by_cases hd : dist tank.loc node < CONNECT_DISTANCE
    · rw [if_pos hd] at h
      refine ⟨0, by simp, ?_, by simpa using hd, by omega⟩
      simpa using h.symm
    · rw [if_neg hd] at h
      obtain ⟨j, hj, he, hdj, hfirst⟩ :=
        seedNodeLoop_spec dist tank pid rest (base + 1) e h
      refine ⟨j + 1, by simpa using hj, ?_, by simpa using hdj, ?_⟩
      · rw [he]
        have : base + 1 + j = base + (j + 1) := by omega
        rw [this]
      · intro j' hj'
        cases j' with
        | zero => simpa using hd
        | succ j'' =>
          rw [List.getD_cons_succ]
          exact hfirst j'' (by omega)

theorem seedSegLoop_spec (dist : Dist) (tank : Tank) (pid : ℕ) :
    ∀ (nodes : List GeoPoint) (base : ℕ) (e : QueueEntry),
      seedSegLoop dist tank pid nodes base = some e →
      ∃ j, j + 1 < nodes.length ∧
        e = { pipelineId := pid, nodeIndex := base + j,
              sourceTank := tank.name } ∧
        distanceToSegment dist tank.loc (nodes.getD j originPoint)
          (nodes.getD (j + 1) originPoint) < CONNECT_DISTANCE ∧
        ∀ j' < j, ¬ distanceToSegment dist tank.loc
          (nodes.getD j' originPoint) (nodes.getD (j' + 1) originPoint) <
            CONNECT_DISTANCE
  | [], base, e => by
    intro h
    simp [seedSegLoop] at h
  | [_], base, e => by
    intro h
    simp [seedSegLoop] at h
  | a :: b :: rest, base, e => by
    intro h
    rw [seedSegLoop] at h
    by_cases hd : distanceToSegment dist tank.loc a b < CONNECT_DISTANCE
    · rw [if_pos hd] at h
      refine ⟨0, by simp, ?_, by simpa using hd, by omega⟩
      simpa using h.symm
    · rw [if_neg hd] at h
      obtain ⟨j, hj, he, hdj, hfirst⟩ :=
        seedSegLoop_spec dist tank pid (b :: rest) (base + 1) e h
      refine ⟨j + 1, by simpa using hj, ?_, by simpa using hdj, ?_⟩
      · rw [he]
        have : base + 1 + j = base + (j + 1) := by omega
        rw [this]
      · intro j' hj'
        cases j' with
        | zero => simpa using hd
        | succ j'' =>
          rw [List.getD_cons_succ, List.getD_cons_succ]
          exact hfirst j'' (by omega)

/-! ## Exact run of a single blocked pipeline (claim C1) -/

theorem bfsLoop_of_queue_nil {dist : Dist} {pipelines : List Pipeline}
    {cvs : List Valve} {st : BFSState} (hq : st.queue = []) :
    ∀ fuel, bfsLoop dist pipelines cvs fuel st = st
  | 0 => rfl
  | fuel + 1 => by rw [bfsLoop, if_pos hq]

theorem bfsLoop_succ_of_queue_ne_nil {dist : Dist} {pipelines : List Pipeline}
    {cvs : List Valve} {st : BFSState} (hq : st.queue ≠ []) (fuel : ℕ) :
    bfsLoop dist pipelines cvs (fuel + 1) st =
      bfsLoop dist pipelines cvs fuel (stepOnce dist pipelines cvs st) := by
  rw [bfsLoop, if_neg hq]

/-- Splitting the fuel of the BFS loop: running `a + b` passes is running
`a` passes and then `b` more. -/
theorem bfsLoop_add (dist : Dist) (pipelines : List Pipeline)
    (cvs : List Valve) :
    ∀ (a b : ℕ) (st : BFSState),
      bfsLoop dist pipelines cvs (a + b) st =
        bfsLoop dist pipelines cvs b (bfsLoop dist pipelines cvs a st)
  | 0, b, st => by rw [Nat.zero_add]; rfl
  | a + 1, b, st => by
    by_cases hq : st.queue = []
    · rw [bfsLoop_of_queue_nil hq, bfsLoop_of_queue_nil hq,
        bfsLoop_of_queue_nil hq]
    · rw [show a + 1 + b = (a + b) + 1 from by omega,
        bfsLoop_succ_of_queue_ne_nil hq (a + b),
        bfsLoop_succ_of_queue_ne_nil hq a]
      exact bfsLoop_add dist pipelines cvs a b _

/-- When the first `fuel` queue entries all name an already-visited node key
of an existing pipeline, `fuel` loop passes just drop them and advance the
iteration counter. -/
theorem bfsLoop_skip_visited (dist : Dist) (pipelines : List Pipeline)
    (cvs : List Valve) :
    ∀ (fuel : ℕ) (st : BFSState),
      fuel ≤ st.queue.length →
      (∀ e ∈ st.queue.take fuel,
        ((e.pipelineId, e.nodeIndex) : NodeKey) ∈ st.visitedPipelineNodes ∧
          (pipelines.find? (fun p => p.id == e.pipelineId)).isSome) →
      bfsLoop dist pipelines cvs fuel st =
        { st with queue := st.queue.drop fuel,
                  iterations := st.iterations + fuel }
  | 0, st, _, _ => rfl
  | fuel + 1, st, hlen, hvis => by
    cases hq : st.queue with
    | nil => rw [hq] at hlen; exact absurd hlen (by simp)
    | cons e rest =>
      have he : ((e.pipelineId, e.nodeIndex) : NodeKey) ∈
          st.visitedPipelineNodes ∧
          (pipelines.find? (fun p => p.id == e.pipelineId)).isSome := by
        refine hvis e ?_
        rw [hq, List.take_succ_cons]
        exact List.mem_cons_self e _
      obtain ⟨hv, hsome⟩ := he
      obtain ⟨cp, hf⟩ := Option.isSome_iff_exists.mp hsome
      have hstep : stepOnce dist pipelines cvs st =
          { st with queue := rest, iterations := st.iterations + 1 } := by
        rw [stepOnce_eq_cons hq]
        exact dequeueStep_eq_visited
          { st with queue := rest, iterations := st.iterations + 1 }
          hf hv
      rw [bfsLoop_succ_of_queue_ne_nil (hq ▸ List.cons_ne_nil e rest) fuel,
        hstep,
        bfsLoop_skip_visited dist pipelines cvs fuel
          { st with queue := rest, iterations := st.iterations + 1 }
          (by simpa [hq] using hlen)
          (by
            intro e' he'
            refine hvis e' ?_
            rw [hq, List.take_succ_cons]
            exact List.mem_cons_of_mem e he')]
      dsimp only
      rw [show List.drop (fuel + 1) (e :: rest) = List.drop fuel rest from rfl,
        show st.iterations + (fuel + 1) = st.iterations + 1 + fuel from by omega]

/-! ## Helper lemmas for the flooding scenario -/

/-- A degenerate segment has zero squared length, so `param = -1` and the
closest point is the segment start. -/
theorem distanceToSegment_self (dist : Dist) (x p : GeoPoint) :
    distanceToSegment dist x p p = dist x p := by
  simp [distanceToSegment]

/-- No node-to-node hits when every node of the other pipeline is out of
reach. -/
theorem nodeNodeHits_eq_nil {dist : Dist} {other : Pipeline}
    {vis : List NodeKey} {src : String} {cn : GeoPoint}
    (h : ∀ p ∈ other.nodes, ¬(dist cn p < CONNECT_DISTANCE)) :
    nodeNodeHits dist other vis src cn = [] := by
  rw [nodeNodeHits, List.filterMap_eq_nil_iff, List.forall_mem_enum]
  intro i hi
  exact if_neg fun hc => h _ (List.getElem_mem _) hc.1

/-- No node-to-segment hits when every segment of the other pipeline is out
of reach. -/
theorem nodeSegHits_eq_nil {dist : Dist} {other : Pipeline}
    {vis : List NodeKey} {src : String} {cn : GeoPoint}
    (h : ∀ s ∈ other.nodes.zip other.nodes.tail,
      ¬(distanceToSegment dist cn s.1 s.2 < CONNECT_DISTANCE)) :
    nodeSegHits dist other vis src cn = [] := by
  rw [nodeSegHits, segPairs, List.filterMap_eq_nil_iff, List.forall_mem_enum]
  intro i hi
  exact if_neg fun hc => h _ (List.getElem_mem _) hc.1

/-- No segment-to-node hits when every node of the other pipeline is out of
reach of every segment of the current one. -/
theorem segNodeHits_eq_nil {dist : Dist} {other : Pipeline}
    {vis : List NodeKey} {src : String} {ns : List GeoPoint}
    (h : ∀ p ∈ other.nodes, ∀ ab ∈ ns.zip ns.tail,
      ¬(distanceToSegment dist p ab.1 ab.2 < CONNECT_DISTANCE)) :
    segNodeHits dist other vis src ns = [] := by
  rw [segNodeHits, List.flatMap_eq_nil_iff]
  intro ab hab
  rw [List.filterMap_eq_nil_iff, List.forall_mem_enum]
  intro i hi
  exact if_neg fun hc => h _ (List.getElem_mem _) ab hab hc.1

theorem flatMap_replicate_nil {α β : Type} {f : α → List β} {a : α}
    (hf : f a = []) : ∀ n, (List.replicate n a).flatMap f = []
  | 0 => rfl
  | n + 1 => by
    rw [List.replicate_succ, List.flatMap_cons, hf, List.nil_append,
      flatMap_replicate_nil hf n]

theorem flatMap_replicate_single {α β : Type} {f : α → List β} {a : α}
    {b : β} (hf : f a = [b]) :
    ∀ n, (List.replicate n a).flatMap f = List.replicate n b
  | 0 => rfl
  | n + 1 => by
    rw [List.replicate_succ, List.flatMap_cons, hf,
      flatMap_replicate_single hf n, List.replicate_succ,
      List.singleton_append]

theorem zip_replicate_succ {α : Type} (a : α) :
    ∀ n, (List.replicate (n + 1) a).zip (List.replicate n a) =
      List.replicate n (a, a)
  | 0 => rfl
  | n + 1 => by
    rw [List.replicate_succ (n := n + 1), List.replicate_succ (n := n),
      List.zip_cons_cons, ← List.replicate_succ a n, zip_replicate_succ a n,
      ← List.replicate_succ]

/-- The seeding node loop finds nothing on a pipeline whose nodes all
coincide at an out-of-reach point. -/
theorem seedNodeLoop_replicate_none {dist : Dist} {tank : Tank} {pid : ℕ}
    {p : GeoPoint} (h : ¬(dist tank.loc p < CONNECT_DISTANCE)) :
    ∀ n idx, seedNodeLoop dist tank pid (List.replicate n p) idx = none
  | 0, _ => rfl
  | n + 1, idx => by
    rw [List.replicate_succ, seedNodeLoop, if_neg h]
    exact seedNodeLoop_replicate_none h n (idx + 1)

/-- The seeding segment loop finds nothing on a pipeline whose nodes all
coincide at an out-of-reach point. -/
theorem seedSegLoop_replicate_none {dist : Dist} {tank : Tank} {pid : ℕ}
    {p : GeoPoint}
    (h : ¬(distanceToSegment dist tank.loc p p < CONNECT_DISTANCE)) :
    ∀ n idx, seedSegLoop dist tank pid (List.replicate n p) idx = none
  | 0, _ => rfl
  | 1, _ => rfl
  | n + 2, idx => by
    rw [show n + 2 = n + 1 + 1 from rfl, List.replicate_succ,
      List.replicate_succ, seedSegLoop, if_neg h, ← List.replicate_succ]
    exact seedSegLoop_replicate_none h (n + 1) (idx + 1)

/-- `propagationEntries` as a `flatMap` of per-neighbor contributions. -/
theorem propagationEntries_eq_flatMap (dist : Dist) (ps : List Pipeline)
    (pid : ℕ) (ns : List GeoPoint) (src : String) (vis : List NodeKey) :
    propagationEntries dist ps pid ns src vis =
      ps.flatMap (pipeContrib dist pid ns src vis) := rfl

/-- From one out-of-reach point, `C` yields no node-to-node and no
node-to-segment hits. -/
theorem pipeC_hits_nil (vis : List NodeKey) (src : String) (cn : GeoPoint)
    (h : ¬(testDist cn ⟨0, -500⟩ < CONNECT_DISTANCE)) :
    nodeNodeHits testDist pipeC vis src cn = [] ∧
      nodeSegHits testDist pipeC vis src cn = [] := by
  constructor
  · refine nodeNodeHits_eq_nil ?_
    intro p hp
    rw [show pipeC.nodes = List.replicate 5000 (⟨0, -500⟩ : GeoPoint) from rfl]
      at hp
    rwa [List.eq_of_mem_replicate hp]
  · refine nodeSegHits_eq_nil ?_
    intro s hs
    rw [show pipeC.nodes = List.replicate 5000 (⟨0, -500⟩ : GeoPoint) from rfl,
      show (List.replicate 5000 (⟨0, -500⟩ : GeoPoint)).tail =
        List.replicate 4999 (⟨0, -500⟩ : GeoPoint) from rfl,
      show (5000 : ℕ) = 4999 + 1 from rfl, zip_replicate_succ] at hs
    rw [List.eq_of_mem_replicate hs]
    rwa [distanceToSegment_self]

/-- `C`'s nodes yield no segment-to-node hits from segments that all stay
out of reach of `C`'s location. -/
theorem pipeC_segNode_nil (vis : List NodeKey) (src : String)
    (ns : List GeoPoint)
    (h : ∀ ab ∈ ns.zip ns.tail,
      ¬(distanceToSegment testDist ⟨0, -500⟩ ab.1 ab.2 < CONNECT_DISTANCE)) :
    segNodeHits testDist pipeC vis src ns = [] := by
  refine segNodeHits_eq_nil ?_
  intro p hp ab hab
  rw [show pipeC.nodes = List.replicate 5000 (⟨0, -500⟩ : GeoPoint) from rfl]
    at hp
  rw [List.eq_of_mem_replicate hp]
  exact h ab hab

/-- The whole propagation contribution of `C` vanishes for a current
pipeline that stays out of reach. -/
theorem pipeContrib_C_far (pid : ℕ) (ns : List GeoPoint) (src : String)
    (vis : List NodeKey) (hpid : pid ≠ 4)
    (hns : ∀ cn ∈ ns, ¬(testDist cn ⟨0, -500⟩ < CONNECT_DISTANCE))
    (hseg : ∀ ab ∈ ns.zip ns.tail,
      ¬(distanceToSegment testDist ⟨0, -500⟩ ab.1 ab.2 < CONNECT_DISTANCE)) :
    pipeContrib testDist pid ns src vis pipeC = [] := by
  rw [pipeContrib, if_neg (show ¬pipeC.id = pid from fun h => hpid h.symm)]
  have h1 : (ns.flatMap fun cn =>
      nodeNodeHits testDist pipeC vis src cn ++
        nodeSegHits testDist pipeC vis src cn) = [] := by
    rw [List.flatMap_eq_nil_iff]
    intro cn hcn
    rw [(pipeC_hits_nil vis src cn (hns cn hcn)).1,
      (pipeC_hits_nil vis src cn (hns cn hcn)).2]
    rfl
  rw [h1, pipeC_segNode_nil vis src ns hseg]
  rfl

/-- The one-tank seeding: only `A` is within reach of the near tank. -/
theorem seedQueue_flood_one :
    seedQueue testDist [tankNearA] floodPipes = [aEntry, aEntry] := by
  have hC : seedTankPipeline testDist tankNearA pipeC = [] := by
    rw [seedTankPipeline,
      show pipeC.nodes = List.replicate 5000 (⟨0, -500⟩ : GeoPoint) from rfl,
      seedNodeLoop_replicate_none (by with_unfolding_all decide),
      seedSegLoop_replicate_none (by with_unfolding_all decide)]
    rfl
  simp only [seedQueue, floodPipes, List.flatMap_cons, List.flatMap_nil,
    List.append_nil]
  rw [hC,
    show seedTankPipeline testDist tankNearA pipeA = [aEntry, aEntry] from by
      with_unfolding_all decide,
    show seedTankPipeline testDist tankNearA pipeM = [] from by
      with_unfolding_all decide,
    show seedTankPipeline testDist tankNearA pipeX = [] from by
      with_unfolding_all decide,
    show seedTankPipeline testDist tankNearA pipeV = [] from by
      with_unfolding_all decide]
  rfl

/-- The two-tank seeding: `A` from the near tank, then `C` (twice: node
loop and segment loop) from the far tank. -/
theorem seedQueue_flood_two :
    seedQueue testDist [tankNearA, tankFar] floodPipes =
      [aEntry, aEntry, cEntry, cEntry] := by
  have hC1 : seedTankPipeline testDist tankNearA pipeC = [] := by
    rw [seedTankPipeline,
      show pipeC.nodes = List.replicate 5000 (⟨0, -500⟩ : GeoPoint) from rfl,
      seedNodeLoop_replicate_none (by with_unfolding_all decide),
      seedSegLoop_replicate_none (by with_unfolding_all decide)]
    rfl
  simp only [seedQueue, floodPipes, List.flatMap_cons, List.flatMap_nil,
    List.append_nil]
  rw [hC1,
    show seedTankPipeline testDist tankNearA pipeA = [aEntry, aEntry] from by
      with_unfolding_all decide,
    show seedTankPipeline testDist tankNearA pipeM = [] from by
      with_unfolding_all decide,
    show seedTankPipeline testDist tankNearA pipeX = [] from by
      with_unfolding_all decide,
    show seedTankPipeline testDist tankNearA pipeV = [] from by
      with_unfolding_all decide,
    show seedTankPipeline testDist tankFar pipeA = [] from by
      with_unfolding_all decide,
    show seedTankPipeline testDist tankFar pipeM = [] from by
      with_unfolding_all decide,
    show seedTankPipeline testDist tankFar pipeC = [cEntry, cEntry] from by
      with_unfolding_all decide,
    show seedTankPipeline testDist tankFar pipeX = [] from by
      with_unfolding_all decide,
    show seedTankPipeline testDist tankFar pipeV = [] from by
      with_unfolding_all decide]
  rfl

/-- Propagation of `A`'s processing: three copies of the `M` entry. -/
theorem floodProps1 :
    propagationEntries testDist floodPipes 1 pipeA.nodes "T1" [(1, 0)] =
      [mEntry, mEntry, mEntry] := by
  rw [propagationEntries_eq_flatMap]
  simp only [floodPipes, List.flatMap_cons, List.flatMap_nil, List.append_nil]
  rw [pipeContrib_C_far 1 pipeA.nodes "T1" [(1, 0)] (by decide)
      (by with_unfolding_all decide) (by with_unfolding_all decide),
    show pipeContrib testDist 1 pipeA.nodes "T1" [(1, 0)] pipeA = [] from by
      with_unfolding_all decide,
    show pipeContrib testDist 1 pipeA.nodes "T1" [(1, 0)] pipeM =
        [mEntry, mEntry, mEntry] from by
      with_unfolding_all decide,
    show pipeContrib testDist 1 pipeA.nodes "T1" [(1, 0)] pipeX = [] from by
      with_unfolding_all decide,
    show pipeContrib testDist 1 pipeA.nodes "T1" [(1, 0)] pipeV = [] from by
      with_unfolding_all decide]
  rfl

/-- Propagation of `C`'s processing: one `X` entry per node of `C` plus one
per segment of `C` — 9999 copies. -/
theorem floodProps3 :
    propagationEntries testDist floodPipes 4 pipeC.nodes "T2"
        [(1, 0), (4, 0)] =
      List.replicate 9999 xEntry := by
  have hrepl : pipeC.nodes = List.replicate 5000 (⟨0, -500⟩ : GeoPoint) := rfl
  have hzip : pipeC.nodes.zip pipeC.nodes.tail =
      List.replicate 4999 ((⟨0, -500⟩ : GeoPoint), (⟨0, -500⟩ : GeoPoint)) := by
    rw [hrepl,
      show (List.replicate 5000 (⟨0, -500⟩ : GeoPoint)).tail =
        List.replicate 4999 (⟨0, -500⟩ : GeoPoint) from rfl,
      show (5000 : ℕ) = 4999 + 1 from rfl, zip_replicate_succ]
  have hA : pipeContrib testDist 4 pipeC.nodes "T2" [(1, 0), (4, 0)] pipeA =
      [] := by
    rw [pipeContrib, if_neg (by decide)]
    rw [show (pipeC.nodes.flatMap fun cn =>
        nodeNodeHits testDist pipeA [(1, 0), (4, 0)] "T2" cn ++
          nodeSegHits testDist pipeA [(1, 0), (4, 0)] "T2" cn) =
        ([] : List QueueEntry) from by
      rw [hrepl]; exact flatMap_replicate_nil (by with_unfolding_all decide) 5000]
    rw [segNodeHits, hzip,
      flatMap_replicate_nil (by with_unfolding_all decide) 4999]
    rfl
  have hM : pipeContrib testDist 4 pipeC.nodes "T2" [(1, 0), (4, 0)] pipeM =
      [] := by
    rw [pipeContrib, if_neg (by decide)]
    rw [show (pipeC.nodes.flatMap fun cn =>
        nodeNodeHits testDist pipeM [(1, 0), (4, 0)] "T2" cn ++
          nodeSegHits testDist pipeM [(1, 0), (4, 0)] "T2" cn) =
        ([] : List QueueEntry) from by
      rw [hrepl]; exact flatMap_replicate_nil (by with_unfolding_all decide) 5000]
    rw [segNodeHits, hzip,
      flatMap_replicate_nil (by with_unfolding_all decide) 4999]
    rfl
  have hV : pipeContrib testDist 4 pipeC.nodes "T2" [(1, 0), (4, 0)] pipeV =
      [] := by
    rw [pipeContrib, if_neg (by decide)]
    rw [show (pipeC.nodes.flatMap fun cn =>
        nodeNodeHits testDist pipeV [(1, 0), (4, 0)] "T2" cn ++
          nodeSegHits testDist pipeV [(1, 0), (4, 0)] "T2" cn) =
        ([] : List QueueEntry) from by
      rw [hrepl]; exact flatMap_replicate_nil (by with_unfolding_all decide) 5000]
    rw [segNodeHits, hzip,
      flatMap_replicate_nil (by with_unfolding_all decide) 4999]
    rfl
  have hX : pipeContrib testDist 4 pipeC.nodes "T2" [(1, 0), (4, 0)] pipeX =
      List.replicate 9999 xEntry := by
    rw [pipeContrib, if_neg (by decide)]
    rw [show (pipeC.nodes.flatMap fun cn =>
        nodeNodeHits testDist pipeX [(1, 0), (4, 0)] "T2" cn ++
          nodeSegHits testDist pipeX [(1, 0), (4, 0)] "T2" cn) =
        List.replicate 5000 xEntry from by
      rw [hrepl]
      exact flatMap_replicate_single (by with_unfolding_all decide) 5000]
    rw [show segNodeHits testDist pipeX [(1, 0), (4, 0)] "T2" pipeC.nodes =
        List.replicate 4999 xEntry from by
      rw [segNodeHits, hzip]
      exact flatMap_replicate_single (by with_unfolding_all decide) 4999,
      ← List.replicate_add]
  have hC : pipeContrib testDist 4 pipeC.nodes "T2" [(1, 0), (4, 0)] pipeC =
      [] := by
    rw [pipeContrib, if_pos (show pipeC.id = 4 from rfl)]
  rw [propagationEntries_eq_flatMap]
  simp only [floodPipes, List.flatMap_cons, List.flatMap_nil, List.append_nil]
  rw [hA, hM, hC, hX, hV]
  simp only [List.nil_append, List.append_nil]

/-- Propagation of `M`'s processing in the two-tank run: the second node of
`A` and two copies of the `V` entry. -/
theorem floodProps5 :
    propagationEntries testDist floodPipes 2 pipeM.nodes "T1"
        [(1, 0), (4, 0), (2, 0)] =
      [aEntry1, vEntry, vEntry] := by
  rw [propagationEntries_eq_flatMap]
  simp only [floodPipes, List.flatMap_cons, List.flatMap_nil, List.append_nil]
  rw [pipeContrib_C_far 2 pipeM.nodes "T1" [(1, 0), (4, 0), (2, 0)] (by decide)
      (by with_unfolding_all decide) (by with_unfolding_all decide),
    show pipeContrib testDist 2 pipeM.nodes "T1" [(1, 0), (4, 0), (2, 0)]
        pipeA = [aEntry1] from by with_unfolding_all decide,
    show pipeContrib testDist 2 pipeM.nodes "T1" [(1, 0), (4, 0), (2, 0)]
        pipeM = [] from by with_unfolding_all decide,
    show pipeContrib testDist 2 pipeM.nodes "T1" [(1, 0), (4, 0), (2, 0)]
        pipeX = [] from by with_unfolding_all decide,
    show pipeContrib testDist 2 pipeM.nodes "T1" [(1, 0), (4, 0), (2, 0)]
        pipeV = [vEntry, vEntry] from by with_unfolding_all decide]
  rfl

/-- Propagation of `M`'s processing in the one-tank run. -/
theorem floodProps5a :
    propagationEntries testDist floodPipes 2 pipeM.nodes "T1"
        [(1, 0), (2, 0)] =
      [aEntry1, vEntry, vEntry] := by
  rw [propagationEntries_eq_flatMap]
  simp only [floodPipes, List.flatMap_cons, List.flatMap_nil, List.append_nil]
  rw [pipeContrib_C_far 2 pipeM.nodes "T1" [(1, 0), (2, 0)] (by decide)
      (by with_unfolding_all decide) (by with_unfolding_all decide),
    show pipeContrib testDist 2 pipeM.nodes "T1" [(1, 0), (2, 0)]
        pipeA = [aEntry1] from by with_unfolding_all decide,
    show pipeContrib testDist 2 pipeM.nodes "T1" [(1, 0), (2, 0)]
        pipeM = [] from by with_unfolding_all decide,
    show pipeContrib testDist 2 pipeM.nodes "T1" [(1, 0), (2, 0)]
        pipeX = [] from by with_unfolding_all decide,
    show pipeContrib testDist 2 pipeM.nodes "T1" [(1, 0), (2, 0)]
        pipeV = [vEntry, vEntry] from by with_unfolding_all decide]
  rfl

/-- Propagation of `(A, 1)`'s processing in the one-tank run: nothing new. -/
theorem floodProps6 :
    propagationEntries testDist floodPipes 1 pipeA.nodes "T1"
        [(1, 0), (2, 0), (1, 1)] =
      [] := by
  rw [propagationEntries_eq_flatMap]
  simp only [floodPipes, List.flatMap_cons, List.flatMap_nil, List.append_nil]
  rw [pipeContrib_C_far 1 pipeA.nodes "T1" [(1, 0), (2, 0), (1, 1)] (by decide)
      (by with_unfolding_all decide) (by with_unfolding_all decide),
    show pipeContrib testDist 1 pipeA.nodes "T1" [(1, 0), (2, 0), (1, 1)]
        pipeA = [] from by with_unfolding_all decide,
    show pipeContrib testDist 1 pipeA.nodes "T1" [(1, 0), (2, 0), (1, 1)]
        pipeM = [] from by with_unfolding_all decide,
    show pipeContrib testDist 1 pipeA.nodes "T1" [(1, 0), (2, 0), (1, 1)]
        pipeX = [] from by with_unfolding_all decide,
    show pipeContrib testDist 1 pipeA.nodes "T1" [(1, 0), (2, 0), (1, 1)]
        pipeV = [] from by with_unfolding_all decide]
  rfl

/-- Propagation of `V`'s processing in the one-tank run: nothing new. -/
theorem floodProps7 :
    propagationEntries testDist floodPipes 3 pipeV.nodes "T1"
        [(1, 0), (2, 0), (1, 1), (3, 0)] =
      [] := by
  rw [propagationEntries_eq_flatMap]
  simp only [floodPipes, List.flatMap_cons, List.flatMap_nil, List.append_nil]
  rw [pipeContrib_C_far 3 pipeV.nodes "T1" [(1, 0), (2, 0), (1, 1), (3, 0)]
      (by decide)
      (by with_unfolding_all decide) (by with_unfolding_all decide),
    show pipeContrib testDist 3 pipeV.nodes "T1" [(1, 0), (2, 0), (1, 1), (3, 0)]
        pipeA = [] from by with_unfolding_all decide,
    show pipeContrib testDist 3 pipeV.nodes "T1" [(1, 0), (2, 0), (1, 1), (3, 0)]
        pipeM = [] from by with_unfolding_all decide,
    show pipeContrib testDist 3 pipeV.nodes "T1" [(1, 0), (2, 0), (1, 1), (3, 0)]
        pipeX = [] from by with_unfolding_all decide,
    show pipeContrib testDist 3 pipeV.nodes "T1" [(1, 0), (2, 0), (1, 1), (3, 0)]
        pipeV = [] from by with_unfolding_all decide]
  rfl

/-- The first eight dequeues of the one-tank run: the queue then empties
with `V`'s segment flowing. -/
theorem flood_run1_bfs8 :
    bfsLoop testDist floodPipes [valveAtBank] 8 r1St0 = r1St8 := by
  have h1 : stepOnce testDist floodPipes [valveAtBank] r1St0 = r1St1 := by
    have e : stepOnce testDist floodPipes [valveAtBank] r1St0 =
        { queue := [aEntry] ++
            propagationEntries testDist floodPipes 1 pipeA.nodes "T1" [(1, 0)]
          visitedSegments := [(1, 0)]
          blockedSegments := []
          visitedPipelineNodes := [(1, 0)]
          segments := [flowRecA]
          blockedList := []
          pipelineStatus := [(1, "flowing")]
          iterations := 1 } := by
      with_unfolding_all rfl
    rw [e, floodProps1]
    with_unfolding_all rfl
  have h2 : stepOnce testDist floodPipes [valveAtBank] r1St1 = r1St2 := by
    with_unfolding_all rfl
  have h3 : stepOnce testDist floodPipes [valveAtBank] r1St2 = r1St3 := by
    have e : stepOnce testDist floodPipes [valveAtBank] r1St2 =
        { queue := [mEntry, mEntry] ++
            propagationEntries testDist floodPipes 2 pipeM.nodes "T1"
              [(1, 0), (2, 0)]
          visitedSegments := [(1, 0)]
          blockedSegments := []
          visitedPipelineNodes := [(1, 0), (2, 0)]
          segments := [flowRecA]
          blockedList := []
          pipelineStatus := [(1, "flowing"), (2, "flowing")]
          iterations := 3 } := by
      with_unfolding_all rfl
    rw [e, floodProps5a]
    with_unfolding_all rfl
  have h4 : stepOnce testDist floodPipes [valveAtBank] r1St3 = r1St4 := by
    with_unfolding_all rfl
  have h5 : stepOnce testDist floodPipes [valveAtBank] r1St4 = r1St5 := by
    with_unfolding_all rfl
  have h6 : stepOnce testDist floodPipes [valveAtBank] r1St5 = r1St6 := by
    have e : stepOnce testDist floodPipes [valveAtBank] r1St5 =
        { queue := [vEntry, vEntry] ++
            propagationEntries testDist floodPipes 1 pipeA.nodes "T1"
              [(1, 0), (2, 0), (1, 1)]
          visitedSegments := [(1, 0)]
          blockedSegments := []
          visitedPipelineNodes := [(1, 0), (2, 0), (1, 1)]
          segments := [flowRecA]
          blockedList := []
          pipelineStatus := [(1, "flowing"), (2, "flowing")]
          iterations := 6 } := by
      with_unfolding_all rfl
    rw [e, floodProps6]
    with_unfolding_all rfl
  have h7 : stepOnce testDist floodPipes [valveAtBank] r1St6 = r1St7 := by
    have e : stepOnce testDist floodPipes [valveAtBank] r1St6 =
        { queue := [vEntry] ++
            propagationEntries testDist floodPipes 3 pipeV.nodes "T1"
              [(1, 0), (2, 0), (1, 1), (3, 0)]
          visitedSegments := [(1, 0), (3, 0)]
          blockedSegments := []
          visitedPipelineNodes := [(1, 0), (2, 0), (1, 1), (3, 0)]
          segments := [flowRecA, flowRecV]
          blockedList := []
          pipelineStatus := [(1, "flowing"), (2, "flowing"), (3, "flowing")]
          iterations := 7 } := by
      with_unfolding_all rfl
    rw [e, floodProps7]
    with_unfolding_all rfl
  have h8 : stepOnce testDist floodPipes [valveAtBank] r1St7 = r1St8 := by
    with_unfolding_all rfl
  rw [show (8 : ℕ) = 7 + 1 from rfl,
    bfsLoop_succ_of_queue_ne_nil
      (show r1St0.queue ≠ [] from by with_unfolding_all decide) 7, h1,
    show (7 : ℕ) = 6 + 1 from rfl,
    bfsLoop_succ_of_queue_ne_nil
      (show r1St1.queue ≠ [] from by with_unfolding_all decide) 6, h2,
    show (6 : ℕ) = 5 + 1 from rfl,
    bfsLoop_succ_of_queue_ne_nil
      (show r1St2.queue ≠ [] from by with_unfolding_all decide) 5, h3,
    show (5 : ℕ) = 4 + 1 from rfl,
    bfsLoop_succ_of_queue_ne_nil
      (show r1St3.queue ≠ [] from by with_unfolding_all decide) 4, h4,
    show (4 : ℕ) = 3 + 1 from rfl,
    bfsLoop_succ_of_queue_ne_nil
      (show r1St4.queue ≠ [] from by with_unfolding_all decide) 3, h5,
    show (3 : ℕ) = 2 + 1 from rfl,
    bfsLoop_succ_of_queue_ne_nil
      (show r1St5.queue ≠ [] from by with_unfolding_all decide) 2, h6,
    show (2 : ℕ) = 1 + 1 from rfl,
    bfsLoop_succ_of_queue_ne_nil
      (show r1St6.queue ≠ [] from by with_unfolding_all decide) 1, h7,
    show (1 : ℕ) = 0 + 1 from rfl,
    bfsLoop_succ_of_queue_ne_nil
      (show r1St7.queue ≠ [] from by with_unfolding_all decide) 0, h8]
  rfl

/-- The first eight dequeues of the two-tank run: the flood is queued and
the entries for `V` sit behind 9998 duplicates of the visited `X` entry. -/
theorem flood_run2_bfs8 :
    bfsLoop testDist floodPipes [valveAtBank] 8 f2St0 = f2St8 := by
  have h1 : stepOnce testDist floodPipes [valveAtBank] f2St0 = f2St1 := by
    have e : stepOnce testDist floodPipes [valveAtBank] f2St0 =
        { queue := [aEntry, cEntry, cEntry] ++
            propagationEntries testDist floodPipes 1 pipeA.nodes "T1" [(1, 0)]
          visitedSegments := [(1, 0)]
          blockedSegments := []
          visitedPipelineNodes := [(1, 0)]
          segments := [flowRecA]
          blockedList := []
          pipelineStatus := [(1, "flowing")]
          iterations := 1 } := by
      with_unfolding_all rfl
    rw [e, floodProps1]
    with_unfolding_all rfl
  have h2 : stepOnce testDist floodPipes [valveAtBank] f2St1 = f2St2 := by
    with_unfolding_all rfl
  have h3 : stepOnce testDist floodPipes [valveAtBank] f2St2 = f2St3 := by
    have e : stepOnce testDist floodPipes [valveAtBank] f2St2 =
        { queue := [cEntry, mEntry, mEntry, mEntry] ++
            propagationEntries testDist floodPipes 4 pipeC.nodes "T2"
              [(1, 0), (4, 0)]
          visitedSegments := [(1, 0)]
          blockedSegments := [(4, 0)]
          visitedPipelineNodes := [(1, 0), (4, 0)]
          segments := [flowRecA]
          blockedList := [blockRecC]
          pipelineStatus := [(1, "flowing"), (4, "flowing")]
          iterations := 3 } := by
      with_unfolding_all rfl
    rw [e, floodProps3]
    with_unfolding_all rfl
  have h4 : stepOnce testDist floodPipes [valveAtBank] f2St3 = f2St4 := by
    with_unfolding_all rfl
  have h5 : stepOnce testDist floodPipes [valveAtBank] f2St4 = f2St5 := by
    have e : stepOnce testDist floodPipes [valveAtBank] f2St4 =
        { queue := ([mEntry, mEntry] ++ List.replicate 9999 xEntry) ++
            propagationEntries testDist floodPipes 2 pipeM.nodes "T1"
              [(1, 0), (4, 0), (2, 0)]
          visitedSegments := [(1, 0)]
          blockedSegments := [(4, 0)]
          visitedPipelineNodes := [(1, 0), (4, 0), (2, 0)]
          segments := [flowRecA]
          blockedList := [blockRecC]
          pipelineStatus := [(1, "flowing"), (4, "flowing"), (2, "flowing")]
          iterations := 5 } := by
      with_unfolding_all rfl
    rw [e, floodProps5]
    with_unfolding_all rfl
  have h6 : stepOnce testDist floodPipes [valveAtBank] f2St5 = f2St6 := by
    with_unfolding_all rfl
  have h7 : stepOnce testDist floodPipes [valveAtBank] f2St6 = f2St7 := by
    with_unfolding_all rfl
  have h8 : stepOnce testDist floodPipes [valveAtBank] f2St7 = f2St8 := by
    with_unfolding_all rfl
  rw [show (8 : ℕ) = 7 + 1 from rfl,
    bfsLoop_succ_of_queue_ne_nil
      (show f2St0.queue ≠ [] from by with_unfolding_all decide) 7, h1,
    show (7 : ℕ) = 6 + 1 from rfl,
    bfsLoop_succ_of_queue_ne_nil
      (show f2St1.queue ≠ [] from by with_unfolding_all decide) 6, h2,
    show (6 : ℕ) = 5 + 1 from rfl,
    bfsLoop_succ_of_queue_ne_nil
      (show f2St2.queue ≠ [] from by with_unfolding_all decide) 5, h3,
    show (5 : ℕ) = 4 + 1 from rfl,
    bfsLoop_succ_of_queue_ne_nil
      (show f2St3.queue ≠ [] from by with_unfolding_all decide) 4, h4,
    show (4 : ℕ) = 3 + 1 from rfl,
    bfsLoop_succ_of_queue_ne_nil
      (show f2St4.queue ≠ [] from by with_unfolding_all decide) 3, h5,
    show (3 : ℕ) = 2 + 1 from rfl,
    bfsLoop_succ_of_queue_ne_nil
      (show f2St5.queue ≠ [] from by with_unfolding_all decide) 2, h6,
    show (2 : ℕ) = 1 + 1 from rfl,
    bfsLoop_succ_of_queue_ne_nil
      (show f2St6.queue ≠ [] from by with_unfolding_all decide) 1, h7,
    show (1 : ℕ) = 0 + 1 from rfl,
    bfsLoop_succ_of_queue_ne_nil
      (show f2St7.queue ≠ [] from by with_unfolding_all decide) 0, h8]
  rfl

/-- If exactly one closed valve is within range of a segment, it is the one
`getBlockingValve` returns. -/
theorem getBlockingValve_unique {dist : Dist} {a b : GeoPoint} {d : ℚ}
    {v : Valve} :
    ∀ {cvs : List Valve}, v ∈ cvs →
      distanceToSegment dist v.loc a b < d →
      (∀ w ∈ cvs, distanceToSegment dist w.loc a b < d → w = v) →
      getBlockingValve dist a b cvs d = some v := by
  intro cvs
  induction cvs with
  | nil => intro h; cases h
  | cons w rest ih =>
    intro hmem hnear huniq
    rw [getBlockingValve]
    by_cases hw : distanceToSegment dist w.loc a b < d
    · rw [if_pos hw, huniq w (List.mem_cons_self w rest) hw]
    · rw [if_neg hw]
      have hvw : v ≠ w := fun h => hw (h ▸ hnear)
      rcases List.mem_cons.mp hmem with rfl | hmem
      · exact absurd rfl hvw
      · exact ih hmem hnear fun u hu hud => huniq u (List.mem_cons_of_mem w hu) hud

/-- Exact result of one segment scan when the blocking pattern is: no
valve on segments below `k`, a valve on segment `k`: segments `i..k-1`
become flowing, segment `k` becomes blocked, nothing else changes. -/
theorem scanSegments_run (dist : Dist) (cvs : List Valve) (pid : ℕ)
    (src : String) (nodes : List GeoPoint) (k : ℕ) (v : Valve)
    (hk : k + 1 < nodes.length)
    (hbk : getBlockingValve dist (nodes.getD k originPoint)
      (nodes.getD (k + 1) originPoint) cvs VALVE_BLOCK_DISTANCE = some v)
    (hnone : ∀ i, i + 1 < nodes.length → i ≠ k →
      getBlockingValve dist (nodes.getD i originPoint)
        (nodes.getD (i + 1) originPoint) cvs VALVE_BLOCK_DISTANCE = none) :
    ∀ (n i : ℕ) (st : BFSState), k - i = n → i ≤ k →
      (∀ j, i ≤ j → ((pid, j) : SegKey) ∉ st.visitedSegments ∧
        ((pid, j) : SegKey) ∉ st.blockedSegments) →
      scanSegments dist cvs pid src (nodes.drop i) i st =
        { st with
          visitedSegments := st.visitedSegments ++
            ((List.range' i (k - i)).map fun j => ((pid, j) : SegKey))
          blockedSegments := st.blockedSegments ++ [(pid, k)]
          segments := st.segments ++ ((List.range' i (k - i)).map fun j =>
            { pipelineId := pid, start := nodes.getD j originPoint,
              «end» := nodes.getD (j + 1) originPoint, status := "flowing",
              sourceTank := src })
          blockedList := st.blockedList ++
            [{ pipelineId := pid, start := nodes.getD k originPoint,
               «end» := nodes.getD (k + 1) originPoint, status := "blocked",
               blockedBy := v.name }] }
  | 0, i, st, hn, hik, hclean => by
    have hik' : i = k := by omega
    subst hik'
    have hk1 : i < nodes.length := by omega
    have hdropk : nodes.drop i = (nodes.getD i originPoint) ::
        ((nodes.getD (i + 1) originPoint) :: nodes.drop (i + 2)) := by
      rw [List.getD_eq_getElem nodes originPoint hk1,
        List.getD_eq_getElem nodes originPoint hk,
        List.drop_eq_getElem_cons hk1, List.drop_eq_getElem_cons hk]
    rw [hdropk, scanSegments]
    have hguard : ¬ (((pid, i) : SegKey) ∈ st.visitedSegments ∨
        ((pid, i) : SegKey) ∈ st.blockedSegments) := by
      have := hclean i (Nat.le_refl i)
      tauto
    rw [if_neg hguard]
    cases hbv : getBlockingValve dist (nodes.getD i originPoint)
        (nodes.getD (i + 1) originPoint) cvs VALVE_BLOCK_DISTANCE with
    | none => rw [hbv] at hbk; cases hbk
    | some bv =>
      rw [hbv] at hbk
      have hbvv : bv = v := by
        injection hbk
      subst hbvv
      have hnb := (hclean i (Nat.le_refl i)).2
      rw [jsSetAdd, if_neg hnb]
      simp [Nat.sub_self]
  | n + 1, i, st, hn, hik, hclean => by
    have hik' : i < k := by omega
    have hi1 : i + 1 < nodes.length := by omega
    have hi0 : i < nodes.length := by omega
    have hdropi : nodes.drop i = (nodes.getD i originPoint) ::
        ((nodes.getD (i + 1) originPoint) :: nodes.drop (i + 2)) := by
      rw [List.getD_eq_getElem nodes originPoint hi0,
        List.getD_eq_getElem nodes originPoint hi1,
        List.drop_eq_getElem_cons hi0, List.drop_eq_getElem_cons hi1]
    rw [hdropi, scanSegments]
    have hguard : ¬ (((pid, i) : SegKey) ∈ st.visitedSegments ∨
        ((pid, i) : SegKey) ∈ st.blockedSegments) := by
      have := hclean i (Nat.le_refl i)
      tauto
    rw [if_neg hguard]
    cases hbv : getBlockingValve dist (nodes.getD i originPoint)
        (nodes.getD (i + 1) originPoint) cvs VALVE_BLOCK_DISTANCE with
    | some bv =>
      rw [hnone i hi1 (by omega)] at hbv
      cases hbv
    | none =>
      have hnv := (hclean i (Nat.le_refl i)).1
      have hdrop1 : (nodes.getD (i + 1) originPoint) :: nodes.drop (i + 2) =
          nodes.drop (i + 1) := by
        rw [List.getD_eq_getElem nodes originPoint hi1,
          List.drop_eq_getElem_cons hi1]
      rw [hdrop1]
      have hadd : jsSetAdd st.visitedSegments ((pid, i) : SegKey) =
          st.visitedSegments ++ [(pid, i)] := by
        rw [jsSetAdd, if_neg hnv]
      rw [scanSegments_run dist cvs pid src nodes k v hk hbk hnone n (i + 1)
        _ (by omega) (by omega) ?_]
      · have hrange : List.range' i (k - i) =
            i :: List.range' (i + 1) (k - (i + 1)) := by
          have h1 : k - i = (k - (i + 1)) + 1 := by omega
          rw [h1, List.range'_succ]
        rw [hadd, hrange]
        simp [List.append_assoc]
      · intro j hj
        constructor
        · show ((pid, j) : SegKey) ∉ jsSetAdd st.visitedSegments (pid, i)
          rw [jsSetAdd, if_neg hnv]
          intro hmem
          rcases List.mem_append.mp hmem with hmem | hmem
          · exact (hclean j (by omega)).1 hmem
          · rcases List.mem_singleton.mp hmem with heq
            have : j = i := by
              injection heq with h1 h2
            omega
        · exact (hclean j (by omega)).2

theorem processNode_visitedSegments (dist : Dist) (pipelines : List Pipeline)
    (cvs : List Valve) (current : QueueEntry) (cp : Pipeline) (st : BFSState) :
    (processNode dist pipelines cvs current cp st).visitedSegments =
      (scanSegments dist cvs current.pipelineId current.sourceTank cp.nodes 0
        { st with visitedPipelineNodes := (jsSetAdd st.visitedPipelineNodes
            (current.pipelineId, current.nodeIndex)) }).visitedSegments := rfl

theorem processNode_blockedSegments (dist : Dist) (pipelines : List Pipeline)
    (cvs : List Valve) (current : QueueEntry) (cp : Pipeline) (st : BFSState) :
    (processNode dist pipelines cvs current cp st).blockedSegments =
      (scanSegments dist cvs current.pipelineId current.sourceTank cp.nodes 0
        { st with visitedPipelineNodes := (jsSetAdd st.visitedPipelineNodes
            (current.pipelineId, current.nodeIndex)) }).blockedSegments := rfl

theorem processNode_segments (dist : Dist) (pipelines : List Pipeline)
    (cvs : List Valve) (current : QueueEntry) (cp : Pipeline) (st : BFSState) :
    (processNode dist pipelines cvs current cp st).segments =
      (scanSegments dist cvs current.pipelineId current.sourceTank cp.nodes 0
        { st with visitedPipelineNodes := (jsSetAdd st.visitedPipelineNodes
            (current.pipelineId, current.nodeIndex)) }).segments := rfl

theorem processNode_blockedList (dist : Dist) (pipelines : List Pipeline)
    (cvs : List Valve) (current : QueueEntry) (cp : Pipeline) (st : BFSState) :
    (processNode dist pipelines cvs current cp st).blockedList =
      (scanSegments dist cvs current.pipelineId current.sourceTank cp.nodes 0
        { st with visitedPipelineNodes := (jsSetAdd st.visitedPipelineNodes
            (current.pipelineId, current.nodeIndex)) }).blockedList := rfl

/-- Propagation finds nothing when the snapshot has only the current
pipeline. -/
theorem propagationEntries_single (dist : Dist) (P : Pipeline)
    (currentNodes : List GeoPoint) (src : String) (visited : List NodeKey) :
    propagationEntries dist [P] P.id currentNodes src visited = [] := by
  simp [propagationEntries]

/-- Unfolded form of `processNode`: the scan result with the pipeline
status set and the propagation entries appended to the queue. -/
theorem processNode_eq (dist : Dist) (pipelines : List Pipeline)
    (cvs : List Valve) (current : QueueEntry) (cp : Pipeline)
    (st : BFSState) :
    processNode dist pipelines cvs current cp st =
      { scanSegments dist cvs current.pipelineId current.sourceTank cp.nodes 0
          { st with visitedPipelineNodes := (jsSetAdd st.visitedPipelineNodes
              (current.pipelineId, current.nodeIndex)) } with
        pipelineStatus := (jsMapSet (scanSegments dist cvs current.pipelineId
          current.sourceTank cp.nodes 0
          { st with visitedPipelineNodes := (jsSetAdd st.visitedPipelineNodes
              (current.pipelineId, current.nodeIndex)) }).pipelineStatus
          cp.id "flowing")
        queue := ((scanSegments dist cvs current.pipelineId
          current.sourceTank cp.nodes 0
          { st with visitedPipelineNodes := (jsSetAdd st.visitedPipelineNodes
              (current.pipelineId, current.nodeIndex)) }).queue ++
          propagationEntries dist pipelines current.pipelineId cp.nodes
            current.sourceTank (scanSegments dist cvs current.pipelineId
              current.sourceTank cp.nodes 0
              { st with visitedPipelineNodes :=
                  (jsSetAdd st.visitedPipelineNodes
                    (current.pipelineId,
                      current.nodeIndex)) }).visitedPipelineNodes) } := rfl

/-- One whole loop pass that processes an unvisited node key. -/
theorem stepOnce_process_closed (dist : Dist) (pipelines : List Pipeline)
    (cvs : List Valve) (current : QueueEntry) (cp : Pipeline)
    (rest : List QueueEntry) (st : BFSState)
    (hq : st.queue = current :: rest)
    (hf : pipelines.find? (fun p => p.id == current.pipelineId) = some cp)
    (hv : ((current.pipelineId, current.nodeIndex) : NodeKey) ∉
      st.visitedPipelineNodes) :
    stepOnce dist pipelines cvs st =
      processNode dist pipelines cvs current cp
        { st with queue := rest, iterations := st.iterations + 1 } := by
  rw [stepOnce_eq_cons hq]
  exact dequeueStep_eq_process
    { st with queue := rest, iterations := st.iterations + 1 } hf hv

/-- One whole loop pass that skips an already-visited node key. -/
theorem stepOnce_visited_closed (dist : Dist) (pipelines : List Pipeline)
    (cvs : List Valve) (current : QueueEntry) (cp : Pipeline)
    (rest : List QueueEntry) (st : BFSState)
    (hq : st.queue = current :: rest)
    (hf : pipelines.find? (fun p => p.id == current.pipelineId) = some cp)
    (hv : ((current.pipelineId, current.nodeIndex) : NodeKey) ∈
      st.visitedPipelineNodes) :
    stepOnce dist pipelines cvs st =
      { st with queue := rest, iterations := st.iterations + 1 } := by
  rw [stepOnce_eq_cons hq]
  exact dequeueStep_eq_visited
    { st with queue := rest, iterations := st.iterations + 1 } hf hv

/-! ## Claim theorems -/

/-- C2 counterexample: a single tank near node 2 and (first) near segment 1
of a single pipeline enqueues two distinct entry points into that pipeline
during seeding, refuting the claim that at most one entry point per tank
and pipeline is enqueued. -/
theorem C2_counterexample :
    seedQueue testDist [tankNearNode2] [straightPipeline] =
      [{ pipelineId := 1, nodeIndex := 2, sourceTank := "T" },
        { pipelineId := 1, nodeIndex := 1, sourceTank := "T" }] ∧
      ¬ (seedQueue testDist [tankNearNode2] [straightPipeline]).length ≤ 1 := by
  constructor
  · with_unfolding_all rfl
  · with_unfolding_all decide

/-- C2 (amended): during seeding each (tank, pipeline) pair contributes at
most two queue entries — at most one from the node check and at most one
from the segment check — each entry carries the pipeline's id and the
tank's name, and each of the two checks individually is first-match-wins
(the node entry is the first node within `CONNECT_DISTANCE`, the segment
entry is the start index of the first segment within `CONNECT_DISTANCE`). -/
theorem C2_seed_at_most_two_first_match (dist : Dist) (tank : Tank)
    (pipeline : Pipeline) :
    (seedTankPipeline dist tank pipeline).length ≤ 2 ∧
      (∀ e ∈ seedTankPipeline dist tank pipeline,
        e.pipelineId = pipeline.id ∧ e.sourceTank = tank.name) ∧
      (∀ e, seedNodeLoop dist tank pipeline.id pipeline.nodes 0 = some e →
        dist tank.loc (pipeline.nodes.getD e.nodeIndex originPoint) <
            CONNECT_DISTANCE ∧
          ∀ j < e.nodeIndex,
            ¬ dist tank.loc (pipeline.nodes.getD j originPoint) <
              CONNECT_DISTANCE) ∧
      ∀ e, seedSegLoop dist tank pipeline.id pipeline.nodes 0 = some e →
        distanceToSegment dist tank.loc
            (pipeline.nodes.getD e.nodeIndex originPoint)
            (pipeline.nodes.getD (e.nodeIndex + 1) originPoint) <
            CONNECT_DISTANCE ∧
          ∀ j < e.nodeIndex,
            ¬ distanceToSegment dist tank.loc
              (pipeline.nodes.getD j originPoint)
              (pipeline.nodes.getD (j + 1) originPoint) < CONNECT_DISTANCE := by
  refine ⟨?_, ?_, ?_, ?_⟩
  · rw [seedTankPipeline]
    cases seedNodeLoop dist tank pipeline.id pipeline.nodes 0 <;>
      cases seedSegLoop dist tank pipeline.id pipeline.nodes 0 <;> simp
  · intro e he
    rw [seedTankPipeline] at he
    rcases List.mem_append.mp he with he | he
    · rw [Option.mem_toList, Option.mem_def] at he
      obtain ⟨j, -, hej, -, -⟩ := seedNodeLoop_spec dist tank pipeline.id
        pipeline.nodes 0 e he
      rw [hej]
      exact ⟨rfl, rfl⟩
    · rw [Option.mem_toList, Option.mem_def] at he
      obtain ⟨j, -, hej, -, -⟩ := seedSegLoop_spec dist tank pipeline.id
        pipeline.nodes 0 e he
      rw [hej]
      exact ⟨rfl, rfl⟩
  · intro e he
    obtain ⟨j, -, hej, hd, hfirst⟩ := seedNodeLoop_spec dist tank pipeline.id
      pipeline.nodes 0 e he
    rw [hej]
    exact ⟨by simpa using hd, by simpa using hfirst⟩
  · intro e he
    obtain ⟨j, -, hej, hd, hfirst⟩ := seedSegLoop_spec dist tank pipeline.id
      pipeline.nodes 0 e he
    rw [hej]
    exact ⟨by simpa using hd, by simpa using hfirst⟩

/-- C2 witness: the amended theorem applied to the counterexample scenario;
node 2 of the pipeline is indeed within connect distance of the tank. -/
theorem C2_witness :
    testDist tankNearNode2.loc (straightPipeline.nodes.getD 2 originPoint) <
      CONNECT_DISTANCE :=
  ((C2_seed_at_most_two_first_match testDist tankNearNode2
    straightPipeline).2.2.1
    { pipelineId := 1, nodeIndex := 2, sourceTank := "T" }
    (by with_unfolding_all decide)).1

/-- C1: for a snapshot with a single pipeline, one active tank within
connect distance of node 0 (and of segment 0), and exactly one closed
valve within block distance of segment `k` and within block distance of no
other segment, the computation marks exactly segments `0..k-1` flowing (in
order), marks segment `k` blocked recording that valve's name, and leaves
every segment past `k` untouched. -/
theorem C1_block_cuts_pipeline (dist : Dist) (valves : List Valve)
    (T : Tank) (P : Pipeline) (k : ℕ) (v : Valve)
    (hk : k + 1 < P.nodes.length)
    (hnode0 : dist T.loc (P.nodes.getD 0 originPoint) < CONNECT_DISTANCE)
    (hseg0 : distanceToSegment dist T.loc (P.nodes.getD 0 originPoint)
      (P.nodes.getD 1 originPoint) < CONNECT_DISTANCE)
    (hvmem : v ∈ valves) (hvclosed : v.isOpen = false)
    (hvnear : distanceToSegment dist v.loc (P.nodes.getD k originPoint)
      (P.nodes.getD (k + 1) originPoint) < VALVE_BLOCK_DISTANCE)
    (hvuniq : ∀ w ∈ valves, w.isOpen = false →
      distanceToSegment dist w.loc (P.nodes.getD k originPoint)
        (P.nodes.getD (k + 1) originPoint) < VALVE_BLOCK_DISTANCE → w = v)
    (hother : ∀ w ∈ valves, w.isOpen = false →
      ∀ i < P.nodes.length - 1, i ≠ k →
        ¬ distanceToSegment dist w.loc (P.nodes.getD i originPoint)
          (P.nodes.getD (i + 1) originPoint) < VALVE_BLOCK_DISTANCE) :
    (computeMultiTankBFSState dist valves [T] [P]).visitedSegments =
        ((List.range k).map fun i => ((P.id, i) : SegKey)) ∧
      (computeMultiTankBFSState dist valves [T] [P]).blockedSegments =
        [(P.id, k)] ∧
      (computeMultiTankBFS dist valves [T] [P]).segments =
        ((List.range k).map fun i =>
          { pipelineId := P.id, start := P.nodes.getD i originPoint,
            «end» := P.nodes.getD (i + 1) originPoint, status := "flowing",
            sourceTank := T.name }) ∧
      (computeMultiTankBFS dist valves [T] [P]).blockedSegments =
        [{ pipelineId := P.id, start := P.nodes.getD k originPoint,
           «end» := P.nodes.getD (k + 1) originPoint, status := "blocked",
           blockedBy := v.name }] := by
  have h2 : 2 ≤ P.nodes.length := by omega
  obtain ⟨n0, n1, tl, hns⟩ : ∃ n0 n1 tl, P.nodes = n0 :: n1 :: tl := by
    rcases hnp : P.nodes with _ | ⟨a, _ | ⟨b, t⟩⟩
    · rw [hnp] at h2; simp at h2
    · rw [hnp] at h2; simp at h2
    · exact ⟨a, b, t, rfl⟩
  have hgd0 : P.nodes.getD 0 originPoint = n0 := by rw [hns]; rfl
  have hgd1 : P.nodes.getD 1 originPoint = n1 := by rw [hns]; rfl
  have hn0d : dist T.loc n0 < CONNECT_DISTANCE := by rw [← hgd0]; exact hnode0
  have hs0d : distanceToSegment dist T.loc n0 n1 < CONNECT_DISTANCE := by
    rw [← hgd0, ← hgd1]; exact hseg0
  have hseedN : seedNodeLoop dist T P.id P.nodes 0 =
      some { pipelineId := P.id, nodeIndex := 0, sourceTank := T.name } := by
    rw [hns, seedNodeLoop, if_pos hn0d]
  have hseedS : seedSegLoop dist T P.id P.nodes 0 =
      some { pipelineId := P.id, nodeIndex := 0, sourceTank := T.name } := by
    rw [hns, seedSegLoop, if_pos hs0d]
  have hseed : seedQueue dist [T] [P] =
      [{ pipelineId := P.id, nodeIndex := 0, sourceTank := T.name },
        { pipelineId := P.id, nodeIndex := 0, sourceTank := T.name }] := by
    simp [seedQueue, seedTankPipeline, hseedN, hseedS]
  have hbk : getBlockingValve dist (P.nodes.getD k originPoint)
      (P.nodes.getD (k + 1) originPoint) (closedValvesOf valves)
      VALVE_BLOCK_DISTANCE = some v := by
    refine getBlockingValve_unique (mem_closedValvesOf.mpr ⟨hvmem, hvclosed⟩)
      hvnear ?_
    intro w hw hwd
    exact hvuniq w (mem_closedValvesOf.mp hw).1 (mem_closedValvesOf.mp hw).2 hwd
  have hnone : ∀ i, i + 1 < P.nodes.length → i ≠ k →
      getBlockingValve dist (P.nodes.getD i originPoint)
        (P.nodes.getD (i + 1) originPoint) (closedValvesOf valves)
        VALVE_BLOCK_DISTANCE = none := by
    intro i hi hik
    refine getBlockingValve_eq_none.mpr ?_
    intro w hw
    exact hother w (mem_closedValvesOf.mp hw).1 (mem_closedValvesOf.mp hw).2 i
      (by omega) hik
  have hq0 : (initialState dist [T] [P]).queue =
      (⟨P.id, 0, T.name⟩ : QueueEntry) :: [(⟨P.id, 0, T.name⟩ : QueueEntry)] := by
    simp only [initialState]
    exact hseed
  have hfind : [P].find? (fun p => p.id == P.id) = some P := by
    simp [List.find?]
  have hstep1 :=
    stepOnce_process_closed dist [P] (closedValvesOf valves)
      ⟨P.id, 0, T.name⟩ P [⟨P.id, 0, T.name⟩] (initialState dist [T] [P])
      hq0 hfind (by simp [initialState])
  have hstate1 : ({ initialState dist [T] [P] with
        queue := [(⟨P.id, 0, T.name⟩ : QueueEntry)],
        iterations := (initialState dist [T] [P]).iterations + 1 } : BFSState) =
      ⟨[⟨P.id, 0, T.name⟩], [], [], [], [], [], [], 1⟩ := rfl
  rw [hstate1] at hstep1
  have hscan1 : scanSegments dist (closedValvesOf valves) P.id T.name P.nodes 0
      ⟨[⟨P.id, 0, T.name⟩], [], [], [(P.id, 0)], [], [], [], 1⟩ =
      ⟨[⟨P.id, 0, T.name⟩],
        ((List.range' 0 k).map fun j => ((P.id, j) : SegKey)),
        [(P.id, k)],
        [(P.id, 0)],
        ((List.range' 0 k).map fun j =>
          (⟨P.id, P.nodes.getD j originPoint, P.nodes.getD (j + 1) originPoint,
            "flowing", T.name⟩ : FlowingSegment)),
        [⟨P.id, P.nodes.getD k originPoint, P.nodes.getD (k + 1) originPoint,
          "blocked", v.name⟩],
        [], 1⟩ := by
    have h := scanSegments_run dist (closedValvesOf valves) P.id T.name
      P.nodes k v hk hbk hnone k 0
      ⟨[⟨P.id, 0, T.name⟩], [], [], [(P.id, 0)], [], [], [], 1⟩
      (by omega) (by omega) (by intro j hj; exact ⟨by simp, by simp⟩)
    rw [List.drop_zero] at h
    rw [h]
    simp
  have hproc : processNode dist [P] (closedValvesOf valves)
      (⟨P.id, 0, T.name⟩ : QueueEntry) P
      ⟨[⟨P.id, 0, T.name⟩], [], [], [], [], [], [], 1⟩ =
      ⟨[⟨P.id, 0, T.name⟩],
        ((List.range' 0 k).map fun j => ((P.id, j) : SegKey)),
        [(P.id, k)],
        [(P.id, 0)],
        ((List.range' 0 k).map fun j =>
          (⟨P.id, P.nodes.getD j originPoint, P.nodes.getD (j + 1) originPoint,
            "flowing", T.name⟩ : FlowingSegment)),
        [⟨P.id, P.nodes.getD k originPoint, P.nodes.getD (k + 1) originPoint,
          "blocked", v.name⟩],
        [(P.id, "flowing")], 1⟩ := by
    rw [processNode_eq]
    have hinner : ({ (⟨[⟨P.id, 0, T.name⟩], [], [], [], [], [], [], 1⟩ :
          BFSState) with
        visitedPipelineNodes :=
          (jsSetAdd (⟨[⟨P.id, 0, T.name⟩], [], [], [], [], [], [], 1⟩ :
              BFSState).visitedPipelineNodes
            ((⟨P.id, 0, T.name⟩ : QueueEntry).pipelineId,
              (⟨P.id, 0, T.name⟩ : QueueEntry).nodeIndex)) } : BFSState) =
        ⟨[⟨P.id, 0, T.name⟩], [], [], [(P.id, 0)], [], [], [], 1⟩ := by
      simp [jsSetAdd]
    rw [hinner, hscan1]
    have hprop : propagationEntries dist [P]
        (⟨P.id, 0, T.name⟩ : QueueEntry).pipelineId P.nodes
        (⟨P.id, 0, T.name⟩ : QueueEntry).sourceTank
        ([(P.id, 0)] : List NodeKey) = [] :=
      propagationEntries_single dist P P.nodes T.name [(P.id, 0)]
    rw [hprop]
    simp [jsMapSet]
  rw [hproc] at hstep1
  have hstep2 :=
    stepOnce_visited_closed dist [P] (closedValvesOf valves)
      ⟨P.id, 0, T.name⟩ P [] (⟨[⟨P.id, 0, T.name⟩],
        ((List.range' 0 k).map fun j => ((P.id, j) : SegKey)),
        [(P.id, k)],
        [(P.id, 0)],
        ((List.range' 0 k).map fun j =>
          (⟨P.id, P.nodes.getD j originPoint, P.nodes.getD (j + 1) originPoint,
            "flowing", T.name⟩ : FlowingSegment)),
        [⟨P.id, P.nodes.getD k originPoint, P.nodes.getD (k + 1) originPoint,
          "blocked", v.name⟩],
        [(P.id, "flowing")], 1⟩ : BFSState) rfl hfind (by simp)
  have hloop : computeMultiTankBFSState dist valves [T] [P] =
      ⟨[],
        ((List.range' 0 k).map fun j => ((P.id, j) : SegKey)),
        [(P.id, k)],
        [(P.id, 0)],
        ((List.range' 0 k).map fun j =>
          (⟨P.id, P.nodes.getD j originPoint, P.nodes.getD (j + 1) originPoint,
            "flowing", T.name⟩ : FlowingSegment)),
        [⟨P.id, P.nodes.getD k originPoint, P.nodes.getD (k + 1) originPoint,
          "blocked", v.name⟩],
        [(P.id, "flowing")], 2⟩ := by
    rw [computeMultiTankBFSState]
    rw [show maxIterations = 9998 + 1 + 1 from by norm_num [maxIterations]]
    rw [bfsLoop_succ_of_queue_ne_nil (by rw [hq0]; exact List.cons_ne_nil _ _)]
    rw [hstep1]
    rw [bfsLoop_succ_of_queue_ne_nil (List.cons_ne_nil _ _)]
    rw [hstep2]
    exact bfsLoop_of_queue_nil rfl 9998
  have hrange : List.range' 0 k = List.range k := (List.range_eq_range' k).symm
  refine ⟨?_, ?_, ?_, ?_⟩
  · rw [hloop, ← hrange]
  · rw [hloop]
  · show (computeMultiTankBFSState dist valves [T] [P]).segments = _
    rw [hloop, ← hrange]
  · show (computeMultiTankBFSState dist valves [T] [P]).blockedList = _
    rw [hloop]

/-- C1 witness: the theorem applied to the concrete scenario with the
valve on segment 1; segment 1 is the unique blocked segment. -/
theorem C1_witness :
    (computeMultiTankBFSState testDist [valveMidSeg1] [tankAtOrigin]
        [straightPipeline]).blockedSegments = [(straightPipeline.id, 1)] :=
  (C1_block_cuts_pipeline testDist [valveMidSeg1] tankAtOrigin
    straightPipeline 1 valveMidSeg1 (by with_unfolding_all decide)
    (by with_unfolding_all decide) (by with_unfolding_all decide)
    (by with_unfolding_all decide) (by with_unfolding_all decide)
    (by with_unfolding_all decide) (by with_unfolding_all decide)
    (by with_unfolding_all decide)).2.1

/-- C3: at the end of every flow computation the flowing-key and
blocked-key sets are duplicate-free and disjoint, and the returned
`flowingSegments` and `blockedSegments` record lists correspond
entry-by-entry to those key sets (so no segment appears in both lists and
no segment appears twice in either list). -/
theorem C3_segment_partition (dist : Dist) (valves : List Valve)
    (tanks : List Tank) (pipelines : List Pipeline) :
    (computeMultiTankBFSState dist valves tanks pipelines).visitedSegments.Nodup ∧
      (computeMultiTankBFSState dist valves tanks
        pipelines).blockedSegments.Nodup ∧
      (computeMultiTankBFSState dist valves tanks
        pipelines).visitedSegments.Disjoint
        (computeMultiTankBFSState dist valves tanks pipelines).blockedSegments ∧
      List.Forall₂ (recordKeyMatch pipelines)
        (computeMultiTankBFS dist valves tanks pipelines).segments
        (computeMultiTankBFSState dist valves tanks pipelines).visitedSegments ∧
      List.Forall₂ (blockedKeyMatch pipelines)
        (computeMultiTankBFS dist valves tanks pipelines).blockedSegments
        (computeMultiTankBFSState dist valves tanks pipelines).blockedSegments :=
  compute_segPartitionInv dist valves tanks pipelines

/-- C5: `getBlockingValve` on the closed-valve collection returns the first
closed valve in collection order within `d` of the segment (no
distance-based tie-break), a returned valve is always closed and within
`d`, and it returns `none` exactly when no closed valve is within `d` (so
an open valve never blocks). -/
theorem C5_blockingValve_first_match (dist : Dist) (a b : GeoPoint)
    (valves : List Valve) (d : ℚ) :
    (∀ v, getBlockingValve dist a b (closedValvesOf valves) d = some v →
      v.isOpen = false ∧ distanceToSegment dist v.loc a b < d ∧
        ∃ l1 l2, closedValvesOf valves = l1 ++ v :: l2 ∧
          ∀ w ∈ l1, ¬ distanceToSegment dist w.loc a b < d) ∧
      (getBlockingValve dist a b (closedValvesOf valves) d = none ↔
        ∀ w ∈ valves, w.isOpen = false →
          ¬ distanceToSegment dist w.loc a b < d) := by
  constructor
  · intro v hv
    have hmem := getBlockingValve_mem hv
    have hclosed := (mem_closedValvesOf.mp hmem).2
    obtain ⟨hd, l1, l2, hsplit, hfirst⟩ := getBlockingValve_eq_some hv
    exact ⟨hclosed, hd, l1, l2, hsplit, hfirst⟩
  · rw [getBlockingValve_eq_none]
    constructor
    · intro h w hw hcl
      exact h w (mem_closedValvesOf.mpr ⟨hw, hcl⟩)
    · intro h w hw
      obtain ⟨hw', hcl⟩ := mem_closedValvesOf.mp hw
      exact h w hw' hcl

/-- C5 witness: the theorem applied to a concrete closed valve blocking a
concrete segment. -/
theorem C5_witness :
    valveMidSeg1.isOpen = false ∧
      distanceToSegment testDist valveMidSeg1.loc ⟨0, 100⟩ ⟨0, 200⟩ <
        VALVE_BLOCK_DISTANCE :=
  ⟨((C5_blockingValve_first_match testDist ⟨0, 100⟩ ⟨0, 200⟩ [valveMidSeg1]
      VALVE_BLOCK_DISTANCE).1 valveMidSeg1 (by with_unfolding_all decide)).1,
    ((C5_blockingValve_first_match testDist ⟨0, 100⟩ ⟨0, 200⟩ [valveMidSeg1]
      VALVE_BLOCK_DISTANCE).1 valveMidSeg1 (by with_unfolding_all decide)).2.1⟩

/-- C6 (code bug): a pipeline with zero nodes contributes `-1` to
`totalSegments` (JS `nodes.length - 1`), while the spec's
`max(0, nodeCount-1)` formula gives `0`. -/
theorem C6_totalSegments_bug :
    (computeMultiTankBFS testDist [] [] [{ id := 7, nodes := [] }]).totalSegments
        = -1 ∧
      specTotalSegmentCount [{ id := 7, nodes := [] }] = 0 ∧
      (computeMultiTankBFS testDist [] []
          [{ id := 7, nodes := [] }]).totalSegments ≠
        specTotalSegmentCount [{ id := 7, nodes := [] }] := by
  refine ⟨rfl, rfl, ?_⟩
  decide

/-- C7: the combined node-to-node, node-to-segment and segment-to-node
proximity check is symmetric whenever the underlying map distance is
symmetric. -/
theorem C7_adjacency_symmetric (dist : Dist) (d : ℚ) (A B : Pipeline)
    (hsym : ∀ p q, dist p q = dist q p) :
    pipelinesAdjacent dist d A B ↔ pipelinesAdjacent dist d B A := by
  have swap : ∀ X Y : Pipeline,
      pipelinesAdjacent dist d X Y → pipelinesAdjacent dist d Y X := by
    intro X Y h
    rcases h with ⟨a, ha, b, hb, hd⟩ | h | h
    · exact Or.inl ⟨b, hb, a, ha, by rw [hsym b a]; exact hd⟩
    · exact Or.inr (Or.inr h)
    · exact Or.inr (Or.inl h)
  exact ⟨swap A B, swap B A⟩

/-- C7 witness: symmetry of the adjacency check for two concrete pipelines
under the (symmetric) test metric. -/
theorem C7_witness :
    pipelinesAdjacent testDist CONNECT_DISTANCE straightPipeline
        sidePipeline ↔
      pipelinesAdjacent testDist CONNECT_DISTANCE sidePipeline
        straightPipeline :=
  C7_adjacency_symmetric testDist CONNECT_DISTANCE straightPipeline
    sidePipeline (fun p q => by
      rw [testDist, testDist, abs_sub_comm, abs_sub_comm p.lng q.lng])

/-- C8: the BFS loop performs at most 10,000 dequeue iterations on every
input, and the result is returned normally with `totalSegments` computed
over all pipelines whether or not the cap was reached. -/
theorem C8_iteration_cap (dist : Dist) (valves : List Valve)
    (tanks : List Tank) (pipelines : List Pipeline) :
    (computeMultiTankBFSState dist valves tanks pipelines).iterations ≤
        maxIterations ∧
      (computeMultiTankBFS dist valves tanks pipelines).totalSegments =
        totalSegmentsOf pipelines ∧
      (computeMultiTankBFS dist valves tanks pipelines).segments =
        (computeMultiTankBFSState dist valves tanks pipelines).segments := by
  refine ⟨?_, rfl, rfl⟩
  have h := bfsLoop_iterations dist pipelines (closedValvesOf valves)
    maxIterations (initialState dist tanks pipelines)
  simpa [initialState] using h

/-- C9: with a closed valve blocking segment 0 of the seeded pipeline, the
side pipeline is adjacent to it only beyond the block (not to the prefix up
to the blocked segment, and out of the tank's reach), yet propagation uses
every node of the blocked pipeline, so the side pipeline is reached and its
segment is marked flowing. -/
theorem C9_propagation_past_block :
    pipelinesAdjacent testDist CONNECT_DISTANCE straightPipeline
        sidePipeline ∧
      ¬ pipelinesAdjacent testDist CONNECT_DISTANCE
        { id := 1, nodes := straightPipeline.nodes.take 2 } sidePipeline ∧
      seedQueue testDist [tankAtOrigin] [straightPipeline, sidePipeline] =
        [{ pipelineId := 1, nodeIndex := 0, sourceTank := "T" },
          { pipelineId := 1, nodeIndex := 0, sourceTank := "T" }] ∧
      (computeMultiTankBFSState testDist [valveMidSeg0] [tankAtOrigin]
          [straightPipeline, sidePipeline]).blockedSegments = [(1, 0)] ∧
      ((2, 0) : SegKey) ∈ (computeMultiTankBFSState testDist [valveMidSeg0]
        [tankAtOrigin] [straightPipeline, sidePipeline]).visitedSegments ∧
      ({ pipelineId := 2, start := ⟨0, 210⟩, «end» := ⟨0, 300⟩,
          status := "flowing", sourceTank := "T" } : FlowingSegment) ∈
        (computeMultiTankBFS testDist [valveMidSeg0] [tankAtOrigin]
          [straightPipeline, sidePipeline]).segments := by
  refine ⟨by with_unfolding_all decide, by with_unfolding_all decide,
    by with_unfolding_all rfl, ?_, ?_, ?_⟩ <;> with_unfolding_all decide

/-- C10: every blocked record names a closed valve of the snapshot within
block distance of its segment, and every flowing record is within block
distance of no closed valve of the snapshot. -/
theorem C10_blocked_near_valve_flowing_clear (dist : Dist)
    (valves : List Valve) (tanks : List Tank) (pipelines : List Pipeline) :
    (∀ r ∈ (computeMultiTankBFS dist valves tanks pipelines).blockedSegments,
      ∃ v ∈ valves, v.isOpen = false ∧ r.blockedBy = v.name ∧
        distanceToSegment dist v.loc r.start r.«end» < VALVE_BLOCK_DISTANCE) ∧
      ∀ r ∈ (computeMultiTankBFS dist valves tanks pipelines).segments,
        ∀ w ∈ valves, w.isOpen = false →
          ¬ distanceToSegment dist w.loc r.start r.«end» <
            VALVE_BLOCK_DISTANCE := by
  obtain ⟨hb, hf⟩ := compute_geoSound dist valves tanks pipelines
  constructor
  · intro r hr
    obtain ⟨v, hv, hname, hd⟩ := hb r hr
    obtain ⟨hv', hcl⟩ := mem_closedValvesOf.mp hv
    exact ⟨v, hv', hcl, hname, hd⟩
  · intro r hr w hw hcl
    exact hf r hr w (mem_closedValvesOf.mpr ⟨hw, hcl⟩)

/-- C10 witness: the theorem applied to the concrete blocked-pipeline run;
the flowing segment 0 record is clear of the closed valve. -/
theorem C10_witness :
    ¬ distanceToSegment testDist valveMidSeg1.loc ⟨0, 0⟩ ⟨0, 100⟩ <
      VALVE_BLOCK_DISTANCE :=
  (C10_blocked_near_valve_flowing_clear testDist [valveMidSeg1] [tankAtOrigin]
    [straightPipeline]).2
    { pipelineId := 1, start := ⟨0, 0⟩, «end» := ⟨0, 100⟩,
      status := "flowing", sourceTank := "T" } (by with_unfolding_all decide)
    valveMidSeg1 (by with_unfolding_all decide) rfl

/-- C4 counterexample: adding one more active tank can remove a segment
from the flowing set, with pipelines and valve states unchanged.  With the
near tank alone, the run drains in 8 dequeues and segment 0 of pipeline `V`
(key `(3, 0)`) is flowing.  Adding the far tank queues 9999 duplicates of
the already-visited `X` entry in front of `V`'s entries, the
10000-iteration safety cap fires first, and `(3, 0)` is not flowing. -/
theorem C4_counterexample :
    ((3, 0) : SegKey) ∈
        (computeMultiTankBFSState testDist [valveAtBank] [tankNearA]
          floodPipes).visitedSegments ∧
      ((3, 0) : SegKey) ∉
        (computeMultiTankBFSState testDist [valveAtBank] [tankNearA, tankFar]
          floodPipes).visitedSegments := by
  constructor
  · have hinit : initialState testDist [tankNearA] floodPipes = r1St0 := by
      simp only [initialState, seedQueue_flood_one]
      with_unfolding_all rfl
    have hmain : computeMultiTankBFSState testDist [valveAtBank] [tankNearA]
        floodPipes = r1St8 := by
      rw [computeMultiTankBFSState,
        show closedValvesOf [valveAtBank] = [valveAtBank] from rfl, hinit,
        show maxIterations = 8 + 9992 from by norm_num [maxIterations],
        bfsLoop_add, flood_run1_bfs8,
        bfsLoop_of_queue_nil (show r1St8.queue = [] from rfl)]
    rw [hmain]
    with_unfolding_all decide
  · have hinit : initialState testDist [tankNearA, tankFar] floodPipes =
        f2St0 := by
      simp only [initialState, seedQueue_flood_two]
      with_unfolding_all rfl
    have hskip : bfsLoop testDist floodPipes [valveAtBank] 9992 f2St8 =
        { f2St8 with queue := f2St8.queue.drop 9992,
                     iterations := f2St8.iterations + 9992 } := by
      refine bfsLoop_skip_visited testDist floodPipes [valveAtBank] 9992 f2St8
        ?_ ?_
      · rw [show f2St8.queue =
            (List.replicate 9998 xEntry ++ [aEntry1, vEntry, vEntry]) ++
              floodProp8 from rfl,
          List.length_append, List.length_append, List.length_replicate]
        omega
      · intro e he
        rw [show f2St8.queue =
            (List.replicate 9998 xEntry ++ [aEntry1, vEntry, vEntry]) ++
              floodProp8 from rfl,
          List.take_append_of_le_length (by
            rw [List.length_append, List.length_replicate]; omega),
          List.take_append_of_le_length (by
            rw [List.length_replicate]; omega),
          List.take_replicate] at he
        rw [List.eq_of_mem_replicate he]
        constructor
        · with_unfolding_all decide
        · with_unfolding_all decide
    have hmain : computeMultiTankBFSState testDist [valveAtBank]
        [tankNearA, tankFar] floodPipes =
        { f2St8 with queue := f2St8.queue.drop 9992,
                     iterations := f2St8.iterations + 9992 } := by
      rw [computeMultiTankBFSState,
        show closedValvesOf [valveAtBank] = [valveAtBank] from rfl, hinit,
        show maxIterations = 8 + 9992 from by norm_num [maxIterations],
        bfsLoop_add, flood_run2_bfs8, hskip]
    rw [hmain]
    with_unfolding_all decide

/-! ## Lemmas about the pure scan model -/

theorem scanModel_subset (bb : ℕ → Bool) :
    ∀ (l : List ℕ) (C : Finset ℕ), C ⊆ scanModel bb l C
  | [], C => Finset.Subset.refl C
  | j :: js, C => by
    rw [scanModel]
    by_cases hj : j ∈ C
    · rw [if_pos hj]
      exact scanModel_subset bb js C
    · rw [if_neg hj]
      by_cases hb : bb j = true
      · rw [if_pos hb]
        exact Finset.subset_insert j C
      · rw [if_neg hb]
        exact (Finset.subset_insert j C).trans
          (scanModel_subset bb js (insert j C))

theorem pipeCover_mono (bb : ℕ → Bool) (idxs : List ℕ) {k₁ k₂ : ℕ}
    (h : k₁ ≤ k₂) : pipeCover bb idxs k₁ ⊆ pipeCover bb idxs k₂ := by
  induction h with
  | refl => exact Finset.Subset.refl _
  | step _ ih => exact ih.trans (scanModel_subset bb idxs _)

theorem coverOf_mono (dist : Dist) (ps : List Pipeline) (cvs : List Valve)
    (pid : ℕ) {k₁ k₂ : ℕ} (h : k₁ ≤ k₂) :
    coverOf dist ps cvs pid k₁ ⊆ coverOf dist ps cvs pid k₂ :=
  pipeCover_mono _ _ h

/-- The indexed segment pair under a `drop` that exposes two nodes. -/
theorem zip_tail_get?_of_drop {α : Type} :
    ∀ {ns : List α} {i : ℕ} {a b : α} {rest : List α},
      ns.drop i = a :: b :: rest →
      (ns.zip ns.tail).get? i = some (a, b) := by
  intro ns
  induction ns with
  | nil => intro i a b rest h; rw [List.drop_nil] at h; cases h
  | cons x xs ih =>
    intro i a b rest h
    cases i with
    | zero =>
      rw [List.drop_zero] at h
      cases h
      rfl
    | succ i' =>
      rw [List.drop_succ_cons] at h
      cases xs with
      | nil => rw [List.drop_nil] at h; cases h
      | cons y xs' =>
        exact ih h

theorem zip_tail_length {α : Type} (ns : List α) :
    (ns.zip ns.tail).length = ns.length - 1 := by
  rw [List.length_zip, List.length_tail]
  exact min_eq_right (Nat.sub_le _ _)

/-- The bridge between the real segment scan and the pure model: if the
state's flowing/blocked keys of `pid` are the classified set `C` split by
`blockAt`, the scanned state's keys are the `scanModel` result split the
same way. -/
theorem scanSegments_char (dist : Dist) (cvs : List Valve) (pid : ℕ)
    (src : String) (ns₀ : List GeoPoint) :
    ∀ (suf : List GeoPoint) (i : ℕ), suf = ns₀.drop i →
      ∀ (st : BFSState) (C : Finset ℕ),
        (∀ j, (((pid, j) : SegKey) ∈ st.visitedSegments ↔
            (j ∈ C ∧ blockAt dist cvs ns₀ j = false)) ∧
          (((pid, j) : SegKey) ∈ st.blockedSegments ↔
            (j ∈ C ∧ blockAt dist cvs ns₀ j = true))) →
        ∀ j,
          (((pid, j) : SegKey) ∈
              (scanSegments dist cvs pid src suf i st).visitedSegments ↔
            (j ∈ scanModel (blockAt dist cvs ns₀)
                (List.range' i ((ns₀.zip ns₀.tail).length - i)) C ∧
              blockAt dist cvs ns₀ j = false)) ∧
          (((pid, j) : SegKey) ∈
              (scanSegments dist cvs pid src suf i st).blockedSegments ↔
            (j ∈ scanModel (blockAt dist cvs ns₀)
                (List.range' i ((ns₀.zip ns₀.tail).length - i)) C ∧
              blockAt dist cvs ns₀ j = true))
  | [], i, hsuf, st, C, hC => by
    have h1 := congrArg List.length hsuf
    rw [List.length_drop] at h1
    have hlen : (ns₀.zip ns₀.tail).length - i = 0 := by
      have h2 := zip_tail_length ns₀
      simp at h1
      omega
    rw [hlen]
    intro j
    exact hC j
  | [x], i, hsuf, st, C, hC => by
    have h1 := congrArg List.length hsuf
    rw [List.length_drop] at h1
    have hlen : (ns₀.zip ns₀.tail).length - i = 0 := by
      have h2 := zip_tail_length ns₀
      simp at h1
      omega
    rw [hlen]
    intro j
    exact hC j
  | a :: b :: rest, i, hsuf, st, C, hC => by
    have hdrop1 : ns₀.drop (i + 1) = b :: rest :=
      drop_succ_of_drop_eq_cons hsuf.symm
    have hzg : (ns₀.zip ns₀.tail).get? i = some (a, b) :=
      zip_tail_get?_of_drop hsuf.symm
    have hbAt : blockAt dist cvs ns₀ i =
        (getBlockingValve dist a b cvs VALVE_BLOCK_DISTANCE).isSome := by
      rw [blockAt, hzg]
    have h1 := congrArg List.length hsuf
    rw [List.length_drop] at h1
    have hlen : (ns₀.zip ns₀.tail).length - i =
        ((ns₀.zip ns₀.tail).length - (i + 1)) + 1 := by
      have h2 := zip_tail_length ns₀
      simp at h1
      omega
    have hrange : List.range' i ((ns₀.zip ns₀.tail).length - i) =
        i :: List.range' (i + 1) ((ns₀.zip ns₀.tail).length - (i + 1)) := by
      rw [hlen]
      rfl
    rw [scanSegments]
    by_cases hmem : ((pid, i) : SegKey) ∈ st.visitedSegments ∨
        ((pid, i) : SegKey) ∈ st.blockedSegments
    · rw [if_pos hmem]
      have hiC : i ∈ C := by
        rcases hmem with h | h
        · exact ((hC i).1.mp h).1
        · exact ((hC i).2.mp h).1
      intro j
      rw [hrange, scanModel, if_pos hiC]
      exact scanSegments_char dist cvs pid src ns₀ (b :: rest) (i + 1)
        hdrop1.symm st C hC j
    · rw [if_neg hmem]
      have hiC : i ∉ C := by
        intro hiC
        cases hbv : blockAt dist cvs ns₀ i with
        | true => exact hmem (Or.inr ((hC i).2.mpr ⟨hiC, hbv⟩))
        | false => exact hmem (Or.inl ((hC i).1.mpr ⟨hiC, hbv⟩))
      cases hg : getBlockingValve dist a b cvs VALVE_BLOCK_DISTANCE with
      | some w =>
        have hbtrue : blockAt dist cvs ns₀ i = true := by
          rw [hbAt, hg]
          rfl
        have hbs : ((pid, i) : SegKey) ∉ st.blockedSegments := fun h =>
          hmem (Or.inr h)
        intro j
        rw [hrange, scanModel, if_neg hiC, if_pos hbtrue]
        constructor
        · dsimp only
          rw [(hC j).1]
          by_cases hji : j = i
          · subst hji
            simp [hbtrue]
          · simp [Finset.mem_insert, hji]
        · dsimp only
          rw [jsSetAdd, if_neg hbs, List.mem_append, (hC j).2]
          by_cases hji : j = i
          · subst hji
            simp [hbtrue, Finset.mem_insert]
          · simp [Finset.mem_insert, hji, Prod.ext_iff]
      | none =>
        have hbfalse : blockAt dist cvs ns₀ i = false := by
          rw [hbAt, hg]
          rfl
        have hvs : ((pid, i) : SegKey) ∉ st.visitedSegments := fun h =>
          hmem (Or.inl h)
        have hC' : ∀ j,
            (((pid, j) : SegKey) ∈
                (jsSetAdd st.visitedSegments ((pid, i) : SegKey)) ↔
              (j ∈ insert i C ∧ blockAt dist cvs ns₀ j = false)) ∧
            (((pid, j) : SegKey) ∈ st.blockedSegments ↔
              (j ∈ insert i C ∧ blockAt dist cvs ns₀ j = true)) := by
          intro j
          constructor
          · rw [jsSetAdd, if_neg hvs, List.mem_append, (hC j).1]
            by_cases hji : j = i
            · subst hji
              simp [hbfalse, Finset.mem_insert]
            · simp [Finset.mem_insert, hji, Prod.ext_iff]
          · rw [(hC j).2]
            by_cases hji : j = i
            · subst hji
              simp [hbfalse, hiC]
            · simp [Finset.mem_insert, hji]
        intro j
        rw [hrange, scanModel, if_neg hiC,
          if_neg (show ¬blockAt dist cvs ns₀ i = true from by
            rw [hbfalse]; exact Bool.false_ne_true)]
        exact scanSegments_char dist cvs pid src ns₀ (b :: rest) (i + 1)
          hdrop1.symm
          { st with
            visitedSegments := jsSetAdd st.visitedSegments ((pid, i) : SegKey)
            segments := st.segments ++
              [{ pipelineId := pid, start := a, «end» := b,
                 status := "flowing", sourceTank := src }] }
          (insert i C) hC' j

/-- The segment scan of one pipeline never touches the keys of another. -/
theorem scanSegments_other (dist : Dist) (cvs : List Valve) (pid : ℕ)
    (src : String) :
    ∀ (ns : List GeoPoint) (i : ℕ) (st : BFSState) (q : SegKey), q.1 ≠ pid →
      ((q ∈ (scanSegments dist cvs pid src ns i st).visitedSegments ↔
          q ∈ st.visitedSegments) ∧
        (q ∈ (scanSegments dist cvs pid src ns i st).blockedSegments ↔
          q ∈ st.blockedSegments))
  | [], _, st, q, hq => ⟨Iff.rfl, Iff.rfl⟩
  | [_], _, st, q, hq => ⟨Iff.rfl, Iff.rfl⟩
  | a :: b :: rest, i, st, q, hq => by
    rw [scanSegments]
    by_cases hmem : ((pid, i) : SegKey) ∈ st.visitedSegments ∨
        ((pid, i) : SegKey) ∈ st.blockedSegments
    · rw [if_pos hmem]
      exact scanSegments_other dist cvs pid src (b :: rest) (i + 1) st q hq
    · rw [if_neg hmem]
      have hne : q ≠ ((pid, i) : SegKey) := by
        intro h
        exact hq (by rw [h])
      cases hg : getBlockingValve dist a b cvs VALVE_BLOCK_DISTANCE with
      | some w =>
        constructor
        · exact Iff.rfl
        · dsimp only
          rw [jsSetAdd]
          by_cases hbs : ((pid, i) : SegKey) ∈ st.blockedSegments
          · rw [if_pos hbs]
          · rw [if_neg hbs, List.mem_append]
            simp [hne]
      | none =>
        have := scanSegments_other dist cvs pid src (b :: rest) (i + 1)
          { st with
            visitedSegments := jsSetAdd st.visitedSegments ((pid, i) : SegKey)
            segments := st.segments ++
              [{ pipelineId := pid, start := a, «end» := b,
                 status := "flowing", sourceTank := src }] } q hq
        rw [this.1, this.2]
        constructor
        · dsimp only
          rw [jsSetAdd]
          by_cases hvs : ((pid, i) : SegKey) ∈ st.visitedSegments
          · rw [if_pos hvs]
          · rw [if_neg hvs, List.mem_append]
            simp [hne]
        · exact Iff.rfl

theorem countKeys_append_self {pid : ℕ} {k : NodeKey} (h : k.1 = pid)
    (vpn : List NodeKey) :
    countKeys pid (vpn ++ [k]) = countKeys pid vpn + 1 := by
  rw [countKeys, countKeys, List.filter_append, List.length_append]
  have : (([k] : List NodeKey).filter fun k' => k'.1 == pid) = [k] := by
    simp [List.filter, h]
  rw [this]
  rfl

theorem countKeys_append_other {pid : ℕ} {k : NodeKey} (h : ¬k.1 = pid)
    (vpn : List NodeKey) :
    countKeys pid (vpn ++ [k]) = countKeys pid vpn := by
  rw [countKeys, countKeys, List.filter_append, List.length_append]
  have hb : (k.1 == pid) = false := beq_eq_false_iff_ne.mpr h
  have : (([k] : List NodeKey).filter fun k' => k'.1 == pid) = [] := by
    simp [List.filter, hb]
  rw [this]
  rfl

/-- The characterization invariant holds initially: nothing classified,
nothing processed. -/
theorem charInv_initial (dist : Dist) (ps : List Pipeline) (cvs : List Valve)
    (tanks : List Tank) :
    charInv dist ps cvs (initialState dist tanks ps) := by
  intro pid j
  have hcount : countKeys pid (initialState dist tanks ps).visitedPipelineNodes
      = 0 := rfl
  have hmem : ∀ s, s ∉ (initialState dist tanks ps).visitedSegments ∧
      s ∉ (initialState dist tanks ps).blockedSegments := by
    intro s
    exact ⟨List.not_mem_nil s, List.not_mem_nil s⟩
  constructor
  · constructor
    · intro h
      exact absurd h (hmem _).1
    · intro h
      rw [hcount] at h
      exact absurd h.1 (Finset.not_mem_empty j)
  · constructor
    · intro h
      exact absurd h (hmem _).2
    · intro h
      rw [hcount] at h
      exact absurd h.1 (Finset.not_mem_empty j)

/-- The characterization invariant is preserved by the whole loop. -/
theorem compute_charInv (dist : Dist) (valves : List Valve)
    (tanks : List Tank) (ps : List Pipeline) :
    charInv dist ps (closedValvesOf valves)
      (computeMultiTankBFSState dist valves tanks ps) := by
  refine bfsLoop_induction (charInv dist ps (closedValvesOf valves)) ?_
    maxIterations _ (charInv_initial dist ps (closedValvesOf valves) tanks)
  intro st hq h
  cases hq' : st.queue with
  | nil => exact absurd hq' hq
  | cons current rest =>
    rcases stepOnce_cases dist ps (closedValvesOf valves) st hq' with
      heq | ⟨cp, hf, hv, heq⟩
    · rw [heq]
      exact h
    · rw [heq]
      intro pid j
      have hnodes : nodesOfId ps current.pipelineId = cp.nodes := by
        rw [nodesOfId, hf]
        rfl
      have hvpn : (processNode dist ps (closedValvesOf valves) current cp
          { st with queue := rest,
                    iterations := st.iterations + 1 }).visitedPipelineNodes =
          st.visitedPipelineNodes ++
            [(current.pipelineId, current.nodeIndex)] := by
        rw [processNode_visitedPipelineNodes]
        dsimp only
        rw [jsSetAdd, if_neg hv]
      by_cases hpid : pid = current.pipelineId
      · subst hpid
        have hcount : countKeys current.pipelineId (processNode dist ps
            (closedValvesOf valves) current cp
            { st with queue := rest,
                      iterations := st.iterations + 1 }).visitedPipelineNodes =
            countKeys current.pipelineId st.visitedPipelineNodes + 1 := by
          rw [hvpn]
          exact countKeys_append_self
            (k := (current.pipelineId, current.nodeIndex)) rfl
            st.visitedPipelineNodes
        have hbridge := scanSegments_char dist (closedValvesOf valves)
          current.pipelineId current.sourceTank
          (nodesOfId ps current.pipelineId) (nodesOfId ps current.pipelineId) 0
          (List.drop_zero _).symm
          { st with
              queue := rest
              iterations := st.iterations + 1
              visitedPipelineNodes := jsSetAdd st.visitedPipelineNodes
                (current.pipelineId, current.nodeIndex) }
          (coverOf dist ps (closedValvesOf valves) current.pipelineId
            (countKeys current.pipelineId st.visitedPipelineNodes))
          (fun j' => h current.pipelineId j') j
        rw [hcount]
        have hcover : coverOf dist ps (closedValvesOf valves)
            current.pipelineId
            (countKeys current.pipelineId st.visitedPipelineNodes + 1) =
            scanModel (blockAt dist (closedValvesOf valves)
                (nodesOfId ps current.pipelineId))
              (List.range' 0
                (((nodesOfId ps current.pipelineId).zip
                  (nodesOfId ps current.pipelineId).tail).length - 0))
              (coverOf dist ps (closedValvesOf valves) current.pipelineId
                (countKeys current.pipelineId st.visitedPipelineNodes)) := by
          rw [Nat.sub_zero]
          rfl
        rw [hcover]
        constructor
        · rw [processNode_visitedSegments, ← hnodes]
          exact hbridge.1
        · rw [processNode_blockedSegments, ← hnodes]
          exact hbridge.2
      · have hcount : countKeys pid (processNode dist ps
            (closedValvesOf valves) current cp
            { st with queue := rest,
                      iterations := st.iterations + 1 }).visitedPipelineNodes =
            countKeys pid st.visitedPipelineNodes := by
          rw [hvpn]
          exact countKeys_append_other (fun hc => hpid hc.symm) _
        have hother := scanSegments_other dist (closedValvesOf valves)
          current.pipelineId current.sourceTank cp.nodes 0
          { st with
              queue := rest
              iterations := st.iterations + 1
              visitedPipelineNodes := jsSetAdd st.visitedPipelineNodes
                (current.pipelineId, current.nodeIndex) }
          ((pid, j) : SegKey) hpid
        rw [hcount]
        constructor
        · rw [processNode_visitedSegments]
          exact (hother.1).trans (h pid j).1
        · rw [processNode_blockedSegments]
          exact (hother.2).trans (h pid j).2

/-! ## Reachability machinery -/

theorem mem_jsSetAdd {α : Type} [DecidableEq α] {l : List α} {a b : α} :
    a ∈ jsSetAdd l b ↔ a ∈ l ∨ a = b := by
  rw [jsSetAdd]
  by_cases hb : b ∈ l
  · rw [if_pos hb]
    constructor
    · exact Or.inl
    · rintro (h | rfl)
      · exact h
      · exact hb
  · rw [if_neg hb, List.mem_append, List.mem_singleton]

theorem nodesOfId_eq_of_find? {ps : List Pipeline} {pid : ℕ} {cp : Pipeline}
    (hf : ps.find? (fun p => p.id == pid) = some cp) :
    nodesOfId ps pid = cp.nodes := by
  rw [nodesOfId, hf]
  rfl

/-- Every propagation entry is a geometric hit of the processed key. -/
theorem keyHit_of_mem_propagationEntries {dist : Dist} {ps : List Pipeline}
    {pid : ℕ} {ns : List GeoPoint} {src : String} {vis : List NodeKey}
    {e : QueueEntry} (hns : ns = nodesOfId ps pid)
    (he : e ∈ propagationEntries dist ps pid ns src vis) (a : NodeKey)
    (ha : a.1 = pid) :
    KeyHit dist ps a (e.pipelineId, e.nodeIndex) := by
  subst hns
  subst ha
  rw [propagationEntries_eq_flatMap, List.mem_flatMap] at he
  obtain ⟨other, hother, he⟩ := he
  rw [pipeContrib] at he
  by_cases hid : other.id = a.1
  · rw [if_pos hid] at he
    exact absurd he (List.not_mem_nil e)
  · rw [if_neg hid] at he
    refine ⟨other, hother, hid, ?_⟩
    rw [List.mem_append] at he
    rcases he with he | he
    · rw [List.mem_flatMap] at he
      obtain ⟨cn, hcn, he⟩ := he
      rw [List.mem_append] at he
      rcases he with he | he
      · rw [nodeNodeHits, List.mem_filterMap] at he
        obtain ⟨p, hp, hfp⟩ := he
        by_cases hc : dist cn p.2 < CONNECT_DISTANCE ∧ (other.id, p.1) ∉ vis
        · rw [if_pos hc] at hfp
          cases hfp
          exact ⟨rfl, Or.inl ⟨cn, hcn, p, hp, rfl, hc.1⟩⟩
        · rw [if_neg hc] at hfp
          cases hfp
      · rw [nodeSegHits, List.mem_filterMap] at he
        obtain ⟨p, hp, hfp⟩ := he
        by_cases hc : distanceToSegment dist cn p.2.1 p.2.2 <
            CONNECT_DISTANCE ∧ (other.id, p.1) ∉ vis
        · rw [if_pos hc] at hfp
          cases hfp
          exact ⟨rfl, Or.inr (Or.inl ⟨cn, hcn, p, hp, rfl, hc.1⟩)⟩
        · rw [if_neg hc] at hfp
          cases hfp
    · rw [segNodeHits, List.mem_flatMap] at he
      obtain ⟨ab, hab, he⟩ := he
      rw [List.mem_filterMap] at he
      obtain ⟨p, hp, hfp⟩ := he
      by_cases hc : distanceToSegment dist p.2 ab.1 ab.2 <
          CONNECT_DISTANCE ∧ (other.id, p.1) ∉ vis
      · rw [if_pos hc] at hfp
        cases hfp
        exact ⟨rfl, Or.inr (Or.inr ⟨ab, hab, p, hp, rfl, hc.1⟩)⟩
      · rw [if_neg hc] at hfp
        cases hfp

/-- Every geometric hit whose target is unvisited produces a propagation
entry. -/
theorem mem_propagationEntries_of_keyHit {dist : Dist} {ps : List Pipeline}
    {ns : List GeoPoint} {a b : NodeKey} (src : String) (vis : List NodeKey)
    (hns : ns = nodesOfId ps a.1) (hhit : KeyHit dist ps a b)
    (hbv : b ∉ vis) :
    ∃ e ∈ propagationEntries dist ps a.1 ns src vis,
      ((e.pipelineId, e.nodeIndex) : NodeKey) = b := by
  subst hns
  obtain ⟨other, hother, hne, hid, hgeo⟩ := hhit
  have hbpair : ((other.id, b.2) : NodeKey) = b := by
    rw [hid]
  refine ⟨{ pipelineId := other.id, nodeIndex := b.2, sourceTank := src },
    ?_, hbpair⟩
  rw [propagationEntries_eq_flatMap, List.mem_flatMap]
  refine ⟨other, hother, ?_⟩
  rw [pipeContrib, if_neg hne]
  rw [List.mem_append]
  rcases hgeo with ⟨cn, hcn, p, hp, hpb, hd⟩ | ⟨cn, hcn, p, hp, hpb, hd⟩ |
    ⟨ab, hab, p, hp, hpb, hd⟩
  · refine Or.inl ?_
    rw [List.mem_flatMap]
    refine ⟨cn, hcn, ?_⟩
    rw [List.mem_append]
    refine Or.inl ?_
    rw [nodeNodeHits, List.mem_filterMap]
    refine ⟨p, hp, ?_⟩
    rw [if_pos ⟨hd, by rw [hpb, hbpair]; exact hbv⟩, hpb]
  · refine Or.inl ?_
    rw [List.mem_flatMap]
    refine ⟨cn, hcn, ?_⟩
    rw [List.mem_append]
    refine Or.inr ?_
    rw [nodeSegHits, List.mem_filterMap]
    refine ⟨p, hp, ?_⟩
    rw [if_pos ⟨hd, by rw [hpb, hbpair]; exact hbv⟩, hpb]
  · refine Or.inr ?_
    rw [segNodeHits, List.mem_flatMap]
    refine ⟨ab, hab, ?_⟩
    rw [List.mem_filterMap]
    refine ⟨p, hp, ?_⟩
    rw [if_pos ⟨hd, by rw [hpb, hbpair]; exact hbv⟩, hpb]

/-- Soundness: after any run, every visited node key (and every queued
entry) is reachable from the seeds. -/
theorem compute_soundInv (dist : Dist) (valves : List Valve)
    (tanks : List Tank) (ps : List Pipeline) :
    soundInv dist ps (seedQueue dist tanks ps)
      (computeMultiTankBFSState dist valves tanks ps) := by
  refine bfsLoop_induction (soundInv dist ps (seedQueue dist tanks ps)) ?_
    maxIterations _
    ⟨fun e he => Reach.seed e he, fun k hk => absurd hk (List.not_mem_nil k)⟩
  intro st hq hP
  obtain ⟨hqR, hvR⟩ := hP
  cases hq' : st.queue with
  | nil => exact absurd hq' hq
  | cons current rest =>
    have hrest : ∀ e ∈ rest, Reach dist ps (seedQueue dist tanks ps)
        (e.pipelineId, e.nodeIndex) := fun e he =>
      hqR e (by rw [hq']; exact List.mem_cons_of_mem _ he)
    have hcur : Reach dist ps (seedQueue dist tanks ps)
        (current.pipelineId, current.nodeIndex) :=
      hqR current (by rw [hq']; exact List.mem_cons_self _ _)
    rcases stepOnce_cases dist ps (closedValvesOf valves) st hq' with
      heq | ⟨cp, hf, hv, heq⟩
    · rw [heq]
      exact ⟨hrest, hvR⟩
    · rw [heq]
      constructor
      · intro e he
        rw [processNode_queue] at he
        rw [List.mem_append] at he
        rcases he with he | he
        · exact hrest e he
        · exact Reach.step _ _ hcur
            (keyHit_of_mem_propagationEntries
              (nodesOfId_eq_of_find? hf).symm he
              (current.pipelineId, current.nodeIndex) rfl)
      · intro k hk
        rw [processNode_visitedPipelineNodes] at hk
        rw [mem_jsSetAdd] at hk
        rcases hk with hk | rfl
        · exact hvR k hk
        · exact hcur

/-- Completeness invariant: established initially and preserved by every
loop pass. -/
theorem compute_closedInv (dist : Dist) (valves : List Valve)
    (tanks : List Tank) (ps : List Pipeline) :
    closedInv dist ps (seedQueue dist tanks ps)
      (computeMultiTankBFSState dist valves tanks ps) := by
  have hseedpid : ∀ e ∈ seedQueue dist tanks ps,
      (ps.find? fun p => p.id == e.pipelineId).isSome := by
    intro e he
    rw [seedQueue, List.mem_flatMap] at he
    obtain ⟨tank, htank, he⟩ := he
    rw [List.mem_flatMap] at he
    obtain ⟨P, hP, he⟩ := he
    rw [seedTankPipeline, List.mem_append] at he
    have hpid : e.pipelineId = P.id := by
      rcases he with he | he
      · rw [Option.mem_toList, Option.mem_def] at he
        obtain ⟨j, _, he, _, _⟩ := seedNodeLoop_spec dist tank P.id P.nodes 0
          e he
        rw [he]
      · rw [Option.mem_toList, Option.mem_def] at he
        obtain ⟨j, _, he, _, _⟩ := seedSegLoop_spec dist tank P.id P.nodes 0
          e he
        rw [he]
    rw [List.find?_isSome]
    exact ⟨P, hP, by rw [hpid, beq_self_eq_true]⟩
  have hpropspid : ∀ (pid : ℕ) (ns : List GeoPoint) (src : String)
      (vis : List NodeKey) (e : QueueEntry), ns = nodesOfId ps pid →
      e ∈ propagationEntries dist ps pid ns src vis →
      (ps.find? fun p => p.id == e.pipelineId).isSome := by
    intro pid ns src vis e hns he
    obtain ⟨other, hother, _, hid, _⟩ :=
      keyHit_of_mem_propagationEntries hns he (pid, 0) rfl
    rw [List.find?_isSome]
    exact ⟨other, hother, by rw [hid]; exact beq_self_eq_true _⟩
  refine bfsLoop_induction (closedInv dist ps (seedQueue dist tanks ps)) ?_
    maxIterations _
    ⟨hseedpid, fun a ha => absurd ha (List.not_mem_nil a),
      fun e he => Or.inr ⟨e, he, rfl⟩⟩
  intro st hq hP
  obtain ⟨hfind, hcl, hsd⟩ := hP
  cases hq' : st.queue with
  | nil => exact absurd hq' hq
  | cons current rest =>
    have hfrest : ∀ e ∈ rest, (ps.find? fun p => p.id == e.pipelineId).isSome :=
      fun e he => hfind e (by rw [hq']; exact List.mem_cons_of_mem _ he)
    obtain ⟨cp, hf⟩ := Option.isSome_iff_exists.mp
      (hfind current (by rw [hq']; exact List.mem_cons_self _ _))
    by_cases hv : ((current.pipelineId, current.nodeIndex) : NodeKey) ∈
        st.visitedPipelineNodes
    · rw [stepOnce_eq_cons hq', dequeueStep_eq_visited
        { st with queue := rest, iterations := st.iterations + 1 }
        hf hv]
      refine ⟨hfrest, ?_, ?_⟩
      · intro a ha b hb
        rcases hcl a ha b hb with h | ⟨e, he, hkey⟩
        · exact Or.inl h
        · rw [hq'] at he
          rcases List.mem_cons.mp he with rfl | he
        -- e = current
          · exact Or.inl (hkey ▸ hv)
          · exact Or.inr ⟨e, he, hkey⟩
      · intro e he
        rcases hsd e he with h | ⟨e', he', hkey⟩
        · exact Or.inl h
        · rw [hq'] at he'
          rcases List.mem_cons.mp he' with rfl | he'
          · exact Or.inl (hkey ▸ hv)
          · exact Or.inr ⟨e', he', hkey⟩
    · rw [stepOnce_eq_cons hq', dequeueStep_eq_process
        { st with queue := rest, iterations := st.iterations + 1 }
        hf hv]
      have hqueue := processNode_queue dist ps (closedValvesOf valves) current
        cp { st with queue := rest, iterations := st.iterations + 1 }
      have hvpn := processNode_visitedPipelineNodes dist ps
        (closedValvesOf valves) current cp
        { st with queue := rest, iterations := st.iterations + 1 }
      refine ⟨?_, ?_, ?_⟩
      · intro e he
        rw [hqueue] at he
        rw [List.mem_append] at he
        rcases he with he | he
        · exact hfrest e he
        · exact hpropspid current.pipelineId cp.nodes current.sourceTank _ e
            (nodesOfId_eq_of_find? hf).symm he
      · intro a ha b hb
        rw [hvpn] at ha
        rw [mem_jsSetAdd] at ha
        have hmemv : ∀ c : NodeKey, c ∈ st.visitedPipelineNodes →
            c ∈ (processNode dist ps (closedValvesOf valves) current cp
              { st with queue := rest,
                        iterations := st.iterations + 1 }).visitedPipelineNodes := by
          intro c hc
          rw [hvpn, mem_jsSetAdd]
          exact Or.inl hc
        have hmemk :
            ((current.pipelineId, current.nodeIndex) : NodeKey) ∈
              (processNode dist ps (closedValvesOf valves) current cp
                { st with queue := rest,
                          iterations := st.iterations + 1 }).visitedPipelineNodes := by
          rw [hvpn, mem_jsSetAdd]
          exact Or.inr rfl
        rcases ha with ha | rfl
        · rcases hcl a ha b hb with h | ⟨e, he, hkey⟩
          · exact Or.inl (hmemv b h)
          · rw [hq'] at he
            rcases List.mem_cons.mp he with rfl | he
            · exact Or.inl (hkey ▸ hmemk)
            · refine Or.inr ⟨e, ?_, hkey⟩
              rw [hqueue, List.mem_append]
              exact Or.inl he
        · by_cases hbv : b ∈ (processNode dist ps (closedValvesOf valves)
              current cp
              { st with
                  queue := rest
                  iterations := st.iterations + 1 }).visitedPipelineNodes
          · exact Or.inl hbv
          · obtain ⟨e, he, hkey⟩ := mem_propagationEntries_of_keyHit
              current.sourceTank
              (jsSetAdd st.visitedPipelineNodes
                (current.pipelineId, current.nodeIndex))
              (nodesOfId_eq_of_find? hf).symm hb
              (by rw [hvpn] at hbv; exact hbv)
            refine Or.inr ⟨e, ?_, hkey⟩
            rw [hqueue, List.mem_append]
            refine Or.inr ?_
            exact he
      · intro e he
        rcases hsd e he with h | ⟨e', he', hkey⟩
        · rw [hvpn, mem_jsSetAdd]
          exact Or.inl (Or.inl h)
        · rw [hq'] at he'
          rcases List.mem_cons.mp he' with rfl | he'
          · refine Or.inl ?_
            rw [hvpn, mem_jsSetAdd]
            exact Or.inr hkey.symm
          · refine Or.inr ⟨e', ?_, hkey⟩
            rw [hqueue, List.mem_append]
            exact Or.inl he'

/-- In a drained run, the visited set contains every reachable key. -/
theorem reach_subset_vpn_of_drained {dist : Dist} {ps : List Pipeline}
    {seeds : List QueueEntry} {st : BFSState}
    (hclosed : closedInv dist ps seeds st) (hq : st.queue = []) :
    ∀ b, Reach dist ps seeds b → b ∈ st.visitedPipelineNodes := by
  intro b hb
  induction hb with
  | seed e he =>
    rcases hclosed.2.2 e he with h | ⟨e', he', _⟩
    · exact h
    · rw [hq] at he'
      exact absurd he' (List.not_mem_nil e')
  | step a b ha hb ih =>
    rcases hclosed.2.1 a ih b hb with h | ⟨e, he, _⟩
    · exact h
    · rw [hq] at he
      exact absurd he (List.not_mem_nil e)

theorem Reach_mono {dist : Dist} {ps : List Pipeline}
    {s₁ s₂ : List QueueEntry} (hs : ∀ e ∈ s₁, e ∈ s₂) {b : NodeKey}
    (h : Reach dist ps s₁ b) : Reach dist ps s₂ b := by
  induction h with
  | seed e he => exact Reach.seed e (hs e he)
  | step a b _ hb ih => exact Reach.step a b ih hb

theorem seedQueue_append (dist : Dist) (t₁ t₂ : List Tank)
    (ps : List Pipeline) :
    seedQueue dist (t₁ ++ t₂) ps =
      seedQueue dist t₁ ps ++ seedQueue dist t₂ ps := by
  rw [seedQueue, seedQueue, seedQueue, List.flatMap_append]

theorem jsSetAdd_nodup {α : Type} [DecidableEq α] {l : List α} {a : α}
    (h : l.Nodup) : (jsSetAdd l a).Nodup := by
  rw [jsSetAdd]
  by_cases ha : a ∈ l
  · rw [if_pos ha]
    exact h
  · rw [if_neg ha]
    rw [List.nodup_append]
    exact ⟨h, List.nodup_singleton a, by
      intro x hx hxa
      rw [List.mem_singleton] at hxa
      exact ha (hxa ▸ hx)⟩

/-- The visited node-key list never holds duplicates. -/
theorem compute_vpn_nodup (dist : Dist) (valves : List Valve)
    (tanks : List Tank) (ps : List Pipeline) :
    (computeMultiTankBFSState dist valves tanks ps).visitedPipelineNodes.Nodup
    := by
  refine bfsLoop_induction (fun st => st.visitedPipelineNodes.Nodup) ?_
    maxIterations _ List.nodup_nil
  intro st hq h
  cases hq' : st.queue with
  | nil => exact absurd hq' hq
  | cons current rest =>
    rcases stepOnce_cases dist ps (closedValvesOf valves) st hq' with
      heq | ⟨cp, hf, hv, heq⟩
    · rw [heq]
      exact h
    · rw [heq]
      rw [processNode_visitedPipelineNodes]
      exact jsSetAdd_nodup h

theorem countKeys_le_of_subset {vpn₁ vpn₂ : List NodeKey}
    (hn : vpn₁.Nodup) (hs : ∀ k ∈ vpn₁, k ∈ vpn₂) (pid : ℕ) :
    countKeys pid vpn₁ ≤ countKeys pid vpn₂ := by
  rw [countKeys, countKeys]
  have hn1 : (vpn₁.filter fun k => k.1 == pid).Nodup := hn.filter _
  have hsub : ∀ k ∈ vpn₁.filter (fun k => k.1 == pid),
      k ∈ vpn₂.filter fun k => k.1 == pid := by
    intro k hk
    rw [List.mem_filter] at hk
    rw [List.mem_filter]
    exact ⟨hs k hk.1, hk.2⟩
  calc (vpn₁.filter fun k => k.1 == pid).length
      = (vpn₁.filter fun k => k.1 == pid).toFinset.card :=
        (List.toFinset_card_of_nodup hn1).symm
    _ ≤ (vpn₂.filter fun k => k.1 == pid).toFinset.card := by
        refine Finset.card_le_card ?_
        intro k hk
        rw [List.mem_toFinset] at hk
        rw [List.mem_toFinset]
        exact hsub k hk
    _ ≤ (vpn₂.filter fun k => k.1 == pid).length := List.toFinset_card_le _

/-- C4 (amended): adding one more active tank never removes a segment from
the flowing set, provided the augmented computation terminates by draining
its queue (the 10000-iteration safety cap does not fire).  The original
claim, without this proviso, is refuted by `C4_counterexample`. -/
theorem C4_monotone_of_drained (dist : Dist) (valves : List Valve)
    (tanks : List Tank) (t : Tank) (pipelines : List Pipeline)
    (hdrain : (computeMultiTankBFSState dist valves (tanks ++ [t])
      pipelines).queue = []) :
    ∀ k ∈ (computeMultiTankBFSState dist valves tanks
        pipelines).visitedSegments,
      k ∈ (computeMultiTankBFSState dist valves (tanks ++ [t])
        pipelines).visitedSegments := by
  intro k hk
  obtain ⟨pid, j⟩ := k
  have hvpn : ∀ a ∈ (computeMultiTankBFSState dist valves tanks
      pipelines).visitedPipelineNodes,
      a ∈ (computeMultiTankBFSState dist valves (tanks ++ [t])
        pipelines).visitedPipelineNodes := by
    intro a ha
    have h1 : Reach dist pipelines (seedQueue dist tanks pipelines) a :=
      (compute_soundInv dist valves tanks pipelines).2 a ha
    have h2 : Reach dist pipelines (seedQueue dist (tanks ++ [t]) pipelines)
        a := by
      refine Reach_mono ?_ h1
      intro e he
      rw [seedQueue_append]
      exact List.mem_append_left _ he
    exact reach_subset_vpn_of_drained
      (compute_closedInv dist valves (tanks ++ [t]) pipelines) hdrain a h2
  have hcount := countKeys_le_of_subset
    (compute_vpn_nodup dist valves tanks pipelines) hvpn pid
  have h1 := ((compute_charInv dist valves tanks pipelines) pid j).1.mp hk
  exact ((compute_charInv dist valves (tanks ++ [t]) pipelines) pid j).1.mpr
    ⟨coverOf_mono dist pipelines (closedValvesOf valves) pid hcount h1.1,
      h1.2⟩

/-- Witness for the amended C4: in the straight-pipeline scenario the
augmented run (no tanks plus the tank at the origin) drains its queue, and
the theorem applies: the (empty) flowing set of the tankless run is
preserved. -/
theorem C4_monotone_witness :
    (computeMultiTankBFSState testDist [] ([] ++ [tankAtOrigin])
        [straightPipeline]).queue = [] ∧
      ∀ k ∈ (computeMultiTankBFSState testDist [] []
          [straightPipeline]).visitedSegments,
        k ∈ (computeMultiTankBFSState testDist [] ([] ++ [tankAtOrigin])
          [straightPipeline]).visitedSegments :=
  ⟨by with_unfolding_all decide,
    C4_monotone_of_drained testDist [] [] tankAtOrigin [straightPipeline]
      (by with_unfolding_all decide)⟩

end JalFlow
